import Mathlib

/-!
# Verification of the Walmart-DA-Web Golden-layer pipeline

Shallow embedding of the Golden-layer construction pipeline
(`src/pipelines/golden/standardize_columns.py`, `build_dims.py`,
`build_facts.py`) and of the data-quality framework
(`src/pipelines/data_quality/quality_checks.py`).

Modelling conventions:
* pandas tables are lists of records; a nullable cell (`NaN`/`NaT`/`None`)
  is an `Option` field (`none` = missing).
* numeric cells are `ℚ` (the float computations relevant to the claims are
  exact at this granularity); machine 32-bit words in the MD5 digest are
  `Nat` reduced `% 2^32`.
* `pd.merge(..., how="left")` keeps every left row, fans out over all
  matching right rows, and treats missing values in the join key as equal
  (pandas matches NaN keys to NaN keys, unlike SQL); `drop_duplicates`
  also treats missing values as equal.
* dates are proleptic-Gregorian calendar dates; a pandas `Timestamp` at
  day granularity is isomorphic to such a date.
-/

namespace WG

/-! ## ColumnStandardizer: product-name normalization and product ids
    (src/pipelines/golden/standardize_columns.py, lines 33-51) -/

/-- Python `str.lower` restricted to the ASCII range (the characters the
normalization regex can keep; any non-ASCII character is later replaced by
a space by `re.sub(r"[^a-z0-9]+", " ", ...)` whether lower-cased or not). -/
def pyLowerChar (c : Char) : Char :=
  if 'A' ≤ c ∧ c ≤ 'Z' then Char.ofNat (c.toNat + 32) else c

/-- Python whitespace characters recognized by `str.strip()` / `str.split()`
(ASCII subset). -/
def isPySpace (c : Char) : Bool :=
  c = ' ' || c = '\t' || c = '\n' || c = '\x0d' || c = '\x0b' || c = '\x0c'

/-- Is the character in `[a-z0-9]` (the class kept by the regex)? -/
def isLowerAlnum (c : Char) : Bool :=
  (97 ≤ c.toNat && c.toNat ≤ 122) || (48 ≤ c.toNat && c.toNat ≤ 57)

/-- `str.strip()`: drop leading and trailing whitespace. -/
def pyStrip (l : List Char) : List Char :=
  ((l.dropWhile isPySpace).reverse.dropWhile isPySpace).reverse

/-- `re.sub(r"[^a-z0-9]+", " ", s)`: replace every maximal run of
characters outside `[a-z0-9]` by a single space.  The flag records whether
the previous character belonged to such a run. -/
def subRunsAux : Bool → List Char → List Char
  | _, [] => []
  | inRun, c :: cs =>
    if isLowerAlnum c then c :: subRunsAux false cs
    else if inRun then subRunsAux true cs
    else ' ' :: subRunsAux true cs

def subRuns (l : List Char) : List Char := subRunsAux false l

/-- `str.split()` (no separator): whitespace-delimited words, no empties.
The accumulator holds the current word reversed. -/
def pySplitAux : List Char → List Char → List (List Char)
  | acc, [] => if acc.isEmpty then [] else [acc.reverse]
  | acc, c :: cs =>
    if isPySpace c then
      if acc.isEmpty then pySplitAux [] cs else acc.reverse :: pySplitAux [] cs
    else pySplitAux (c :: acc) cs

def pySplit (l : List Char) : List (List Char) := pySplitAux [] l

/-- `" ".join(ws)`. -/
def joinSpace (ws : List (List Char)) : List Char :=
  (ws.intersperse [' ']).flatten

/-- `normalize_product_name` (standardize_columns.py:33): lower-case,
strip, collapse every non-alphanumeric run to a single space, collapse
whitespace.  (The non-string branch returning `""` lives in
`build_product_id`, which feeds `none` cells through as empty.) -/
def normalize_product_name (s : String) : String :=
  ⟨joinSpace (pySplit (subRuns (pyStrip (s.data.map pyLowerChar))))⟩

/-! ### MD5 (Python `hashlib.md5`), on `Nat` words reduced mod 2^32 -/

def m32 : Nat := 4294967296

def add32 (a b : Nat) : Nat := (a + b) % m32

def not32 (x : Nat) : Nat := 4294967295 - x % m32

def rotl32 (x n : Nat) : Nat := ((x % m32) <<< n ||| (x % m32) >>> (32 - n)) % m32

/-- The 64 MD5 sine-derived constants `K[i] = floor(2^32 * abs(sin(i+1)))`. -/
def md5K : List Nat :=
  [0xd76aa478, 0xe8c7b756, 0x242070db, 0xc1bdceee,
   0xf57c0faf, 0x4787c62a, 0xa8304613, 0xfd469501,
   0x698098d8, 0x8b44f7af, 0xffff5bb1, 0x895cd7be,
   0x6b901122, 0xfd987193, 0xa679438e, 0x49b40821,
   0xf61e2562, 0xc040b340, 0x265e5a51, 0xe9b6c7aa,
   0xd62f105d, 0x02441453, 0xd8a1e681, 0xe7d3fbc8,
   0x21e1cde6, 0xc33707d6, 0xf4d50d87, 0x455a14ed,
   0xa9e3e905, 0xfcefa3f8, 0x676f02d9, 0x8d2a4c8a,
   0xfffa3942, 0x8771f681, 0x6d9d6122, 0xfde5380c,
   0xa4beea44, 0x4bdecfa9, 0xf6bb4b60, 0xbebfbc70,
   0x289b7ec6, 0xeaa127fa, 0xd4ef3085, 0x04881d05,
   0xd9d4d039, 0xe6db99e5, 0x1fa27cf8, 0xc4ac5665,
   0xf4292244, 0x432aff97, 0xab9423a7, 0xfc93a039,
   0x655b59c3, 0x8f0ccc92, 0xffeff47d, 0x85845dd1,
   0x6fa87e4f, 0xfe2ce6e0, 0xa3014314, 0x4e0811a1,
   0xf7537e82, 0xbd3af235, 0x2ad7d2bb, 0xeb86d391]

/-- The 64 per-round left-rotation amounts. -/
def md5S : List Nat :=
  [7, 12, 17, 22, 7, 12, 17, 22, 7, 12, 17, 22, 7, 12, 17, 22,
   5,  9, 14, 20, 5,  9, 14, 20, 5,  9, 14, 20, 5,  9, 14, 20,
   4, 11, 16, 23, 4, 11, 16, 23, 4, 11, 16, 23, 4, 11, 16, 23,
   6, 10, 15, 21, 6, 10, 15, 21, 6, 10, 15, 21, 6, 10, 15, 21]

/-- MD5 padding: append `0x80`, zero bytes up to 56 mod 64, then the
original bit length as 8 little-endian bytes. -/
def md5Pad (msg : List Nat) : List Nat :=
  let len := msg.length
  let zeros := (119 - len % 64) % 64
  msg ++ [0x80] ++ List.replicate zeros 0
      ++ (List.range 8).map (fun i => (len * 8) >>> (8 * i) % 256)

/-- Split into 16-word (64-byte) chunks of little-endian 32-bit words. -/
def md5Words : List Nat → List Nat
  | b0 :: b1 :: b2 :: b3 :: rest =>
      (b0 + b1 * 256 + b2 * 65536 + b3 * 16777216) :: md5Words rest
  | _ => []

/-- Split the padded message into 64-byte chunks; the fuel argument (the
byte count) makes the recursion structural and is always sufficient. -/
def md5ChunksAux : Nat → List Nat → List (List Nat)
  | 0, _ => []
  | _, [] => []
  | fuel + 1, l => md5Words (l.take 64) :: md5ChunksAux fuel (l.drop 64)

def md5Chunks (l : List Nat) : List (List Nat) := md5ChunksAux l.length l

/-- One MD5 round `i` on state `(A, B, C, D)` with message words `M`. -/
def md5Round (M : List Nat) (st : Nat × Nat × Nat × Nat) (i : Nat) :
    Nat × Nat × Nat × Nat :=
  let (A, B, C, D) := st
  let (F, g) :=
    if i < 16 then ((B &&& C) ||| (not32 B &&& D), i)
    else if i < 32 then ((D &&& B) ||| (not32 D &&& C), (5 * i + 1) % 16)
    else if i < 48 then (B ^^^ C ^^^ D, (3 * i + 5) % 16)
    else (C ^^^ (B ||| not32 D), (7 * i) % 16)
  let F2 := (F + A + md5K.getD i 0 + M.getD g 0) % m32
  (D, add32 B (rotl32 F2 (md5S.getD i 0)), B, C)

def md5Chunk (st : Nat × Nat × Nat × Nat) (M : List Nat) :
    Nat × Nat × Nat × Nat :=
  let (a0, b0, c0, d0) := st
  let (A, B, C, D) := (List.range 64).foldl (md5Round M) st
  (add32 a0 A, add32 b0 B, add32 c0 C, add32 d0 D)

def hexDigit (n : Nat) : Char :=
  if n < 10 then Char.ofNat (48 + n) else Char.ofNat (87 + n)

def byteHex (b : Nat) : List Char := [hexDigit (b / 16 % 16), hexDigit (b % 16)]

/-- Hex rendering of one 32-bit word, least-significant byte first. -/
def wordHexLE (w : Nat) : List Char :=
  byteHex (w % 256) ++ byteHex (w / 256 % 256)
    ++ byteHex (w / 65536 % 256) ++ byteHex (w / 16777216 % 256)

/-- `hashlib.md5(bytes).hexdigest()`. -/
def md5HexBytes (msg : List Nat) : String :=
  let st := (md5Chunks (md5Pad msg)).foldl md5Chunk
    (0x67452301, 0xefcdab89, 0x98badcfe, 0x10325476)
  ⟨wordHexLE st.1 ++ wordHexLE st.2.1 ++ wordHexLE st.2.2.1 ++ wordHexLE st.2.2.2⟩

/-- `norm.encode("utf-8")`: normalized names only contain `[a-z0-9 ]`, whose
UTF-8 bytes are their code points. -/
def md5HexAscii (s : String) : String := md5HexBytes (s.data.map Char.toNat)

/-- `build_product_ids` applied to one cell (standardize_columns.py:42-51):
a missing / non-string name normalizes to `""` and produces a missing id;
otherwise the id is `"PROD_"` (the default `"PROD"` keyword argument plus
the underscore of the f-string) followed by the first 10 hex characters of
the MD5 digest of the normalized name. -/
def build_product_id (name : Option String) : Option String :=
  match name with
  | none => none
  | some s =>
    let norm := normalize_product_name s
    if norm = "" then none
    else some ("PROD_" ++ ⟨(md5HexAscii norm).data.take 10⟩)

/-! ## Calendar dates

A pandas `Timestamp` at day granularity is a proleptic-Gregorian calendar
date; `pd.date_range(start, end, freq="D")` enumerates consecutive days.
`dateIdx` is the number of days since 0001-01-01 (which is a Monday, so
pandas' `dayofweek` with Monday = 0 is `dateIdx % 7`). -/

def isLeapYear (y : Nat) : Bool := (y % 4 == 0 && y % 100 != 0) || y % 400 == 0

def daysInMonthL (leap : Bool) (m : Nat) : Nat :=
  if m = 2 then (if leap then 29 else 28)
  else if m = 4 ∨ m = 6 ∨ m = 9 ∨ m = 11 then 30
  else 31

structure Date where
  year : Nat
  month : Nat
  day : Nat
deriving DecidableEq

def ValidDate (d : Date) : Prop :=
  1 ≤ d.year ∧ 1 ≤ d.month ∧ d.month ≤ 12 ∧ 1 ≤ d.day ∧
    d.day ≤ daysInMonthL (isLeapYear d.year) d.month

instance : DecidablePred ValidDate := fun d => by unfold ValidDate; infer_instance

def nextDate (d : Date) : Date :=
  if d.day < daysInMonthL (isLeapYear d.year) d.month then ⟨d.year, d.month, d.day + 1⟩
  else if d.month < 12 then ⟨d.year, d.month + 1, 1⟩
  else ⟨d.year + 1, 1, 1⟩

def prevDate (d : Date) : Date :=
  if 1 < d.day then ⟨d.year, d.month, d.day - 1⟩
  else if 1 < d.month then ⟨d.year, d.month - 1, daysInMonthL (isLeapYear d.year) (d.month - 1)⟩
  else ⟨d.year - 1, 12, 31⟩

/-- `int(date.strftime("%Y%m%d"))`. -/
def dateKey (d : Date) : Nat := 10000 * d.year + 100 * d.month + d.day

/-- Days before month `m` in a year of the given leapness (`m = 13` gives
the length of the year). -/
def monthOffset (leap : Bool) (m : Nat) : Nat :=
  (match m with
   | 1 => 0 | 2 => 31 | 3 => 59 | 4 => 90 | 5 => 120 | 6 => 151 | 7 => 181
   | 8 => 212 | 9 => 243 | 10 => 273 | 11 => 304 | 12 => 334 | _ => 365)
  + (if leap && decide (3 ≤ m) then 1 else 0)

/-- Days before January 1 of year `y`, counting from 0001-01-01. -/
def yearIdx (y : Nat) : Nat :=
  365 * (y - 1) + (y - 1) / 4 - (y - 1) / 100 + (y - 1) / 400

/-- Day number of a date (days since 0001-01-01). -/
def dateIdx (d : Date) : Nat :=
  yearIdx d.year + monthOffset (isLeapYear d.year) d.month + (d.day - 1)

theorem daysInMonthL_pos (leap : Bool) (m : Nat) : 1 ≤ daysInMonthL leap m := by
  unfold daysInMonthL; split_ifs <;> omega

theorem daysInMonthL_le (leap : Bool) (m : Nat) : daysInMonthL leap m ≤ 31 := by
  unfold daysInMonthL; split_ifs <;> omega

theorem monthOffset_succ (leap : Bool) (m : Nat) (h1 : 1 ≤ m) (h2 : m ≤ 12) :
    monthOffset leap (m + 1) = monthOffset leap m + daysInMonthL leap m := by
  interval_cases m <;> cases leap <;> decide

theorem monthOffset_mono_aux : ∀ leap : Bool, ∀ mb : Nat, mb < 14 → ∀ ma : Nat,
    ma < 14 → 1 ≤ ma → ma ≤ mb → monthOffset leap ma ≤ monthOffset leap mb := by decide

theorem dateIdx_def (d : Date) : dateIdx d
    = yearIdx d.year + monthOffset (isLeapYear d.year) d.month + (d.day - 1) := rfl

theorem validDate_iff (y m dy : Nat) : ValidDate ⟨y, m, dy⟩
    ↔ 1 ≤ y ∧ 1 ≤ m ∧ m ≤ 12 ∧ 1 ≤ dy ∧ dy ≤ daysInMonthL (isLeapYear y) m := Iff.rfl

theorem monthOffset_one : ∀ leap : Bool, monthOffset leap 1 = 0 := by decide

theorem monthOffset_twelve : ∀ leap : Bool,
    monthOffset leap 12 = 334 + (if leap then 1 else 0) := by decide

theorem daysInMonthL_twelve : ∀ leap : Bool, daysInMonthL leap 12 = 31 := by decide

theorem offset_day_bound (leap : Bool) (m dy : Nat) (h1 : 1 ≤ m) (h2 : m ≤ 12)
    (h3 : 1 ≤ dy) (h4 : dy ≤ daysInMonthL leap m) :
    monthOffset leap m + (dy - 1) < 365 + (if leap then 1 else 0) := by
  interval_cases m <;> cases leap <;> simp [monthOffset, daysInMonthL] at * <;> omega

theorem isLeapYear_iff (y : Nat) :
    isLeapYear y = true ↔ ((y % 4 = 0 ∧ ¬ y % 100 = 0) ∨ y % 400 = 0) := by
  simp [isLeapYear]

theorem yearIdx_succ (y : Nat) (h : 1 ≤ y) :
    yearIdx (y + 1) = yearIdx y + 365 + (if isLeapYear y then 1 else 0) := by
  have d4 : y / 4 = (y - 1) / 4 + (if y % 4 = 0 then 1 else 0) := by
    split_ifs with hc <;> omega
  have d100 : y / 100 = (y - 1) / 100 + (if y % 100 = 0 then 1 else 0) := by
    split_ifs with hc <;> omega
  have d400 : y / 400 = (y - 1) / 400 + (if y % 400 = 0 then 1 else 0) := by
    split_ifs with hc <;> omega
  unfold yearIdx
  simp only [Nat.add_sub_cancel]
  split_ifs at d4 d100 d400 ⊢ with h1 h2 h3 h4 <;>
    rw [isLeapYear_iff] at * <;> omega

theorem yearIdx_le_succ (y : Nat) : yearIdx y ≤ yearIdx (y + 1) := by
  unfold yearIdx; omega

theorem yearIdx_mono (ya yb : Nat) (h : ya ≤ yb) : yearIdx ya ≤ yearIdx yb := by
  induction yb with
  | zero =>
    have hz : ya = 0 := by omega
    subst hz; exact le_refl _
  | succ k ih =>
    rcases Nat.eq_or_lt_of_le h with he | hlt
    · subst he; exact le_refl _
    · exact le_trans (ih (by omega)) (yearIdx_le_succ k)

theorem yearIdx_strict (ya yb : Nat) (h1 : 1 ≤ ya) (h : ya < yb) :
    yearIdx ya + 365 ≤ yearIdx yb := by
  have h2 := yearIdx_succ ya h1
  have h3 := yearIdx_mono (ya + 1) yb h
  split_ifs at h2 <;> omega

theorem yearIdx_le_dateIdx (d : Date) : yearIdx d.year ≤ dateIdx d := by
  unfold dateIdx; omega

theorem dateIdx_lt_yearIdx_succ (d : Date) (h : ValidDate d) :
    dateIdx d < yearIdx (d.year + 1) := by
  obtain ⟨hy, hm1, hm2, hd1, hd2⟩ := h
  have hb := offset_day_bound (isLeapYear d.year) d.month d.day hm1 hm2 hd1 hd2
  have hs := yearIdx_succ d.year hy
  rw [dateIdx_def]
  split_ifs at hb hs <;> omega

theorem dateIdx_inj (a b : Date) (ha : ValidDate a) (hb : ValidDate b)
    (h : dateIdx a = dateIdx b) : a = b := by
  obtain ⟨hay, ham1, ham2, had1, had2⟩ := ha
  obtain ⟨hby, hbm1, hbm2, hbd1, hbd2⟩ := hb
  have hy : a.year = b.year := by
    rcases Nat.lt_trichotomy a.year b.year with hlt | heq | hlt
    · exfalso
      have h1 := dateIdx_lt_yearIdx_succ a ⟨hay, ham1, ham2, had1, had2⟩
      have h2 := yearIdx_mono (a.year + 1) b.year hlt
      have h3 := yearIdx_le_dateIdx b
      omega
    · exact heq
    · exfalso
      have h1 := dateIdx_lt_yearIdx_succ b ⟨hby, hbm1, hbm2, hbd1, hbd2⟩
      have h2 := yearIdx_mono (b.year + 1) a.year hlt
      have h3 := yearIdx_le_dateIdx a
      omega
  have hle : isLeapYear a.year = isLeapYear b.year := by rw [hy]
  rw [hle] at had2
  have hoff : monthOffset (isLeapYear b.year) a.month + (a.day - 1)
      = monthOffset (isLeapYear b.year) b.month + (b.day - 1) := by
    have hyi : yearIdx a.year = yearIdx b.year := by rw [hy]
    have h2 : dateIdx a = dateIdx b := h
    rw [dateIdx_def, dateIdx_def, hle, hyi] at h2
    omega
  have hm : a.month = b.month := by
    rcases Nat.lt_trichotomy a.month b.month with hlt | heq | hlt
    · exfalso
      have h1 : monthOffset (isLeapYear b.year) a.month + (a.day - 1)
          < monthOffset (isLeapYear b.year) (a.month + 1) := by
        rw [monthOffset_succ _ _ ham1 ham2]; omega
      have h2 := monthOffset_mono_aux (isLeapYear b.year) b.month (by omega)
        (a.month + 1) (by omega) (by omega) hlt
      omega
    · exact heq
    · exfalso
      have h1 : monthOffset (isLeapYear b.year) b.month + (b.day - 1)
          < monthOffset (isLeapYear b.year) (b.month + 1) := by
        rw [monthOffset_succ _ _ hbm1 hbm2]; omega
      have h2 := monthOffset_mono_aux (isLeapYear b.year) a.month (by omega)
        (b.month + 1) (by omega) (by omega) hlt
      omega
  have hd : a.day = b.day := by rw [hm] at hoff; omega
  cases a with
  | mk ay am ad =>
    cases b with
    | mk cy cm cd =>
      simp only [Date.mk.injEq]
      exact ⟨hy, hm, hd⟩

theorem nextDate_valid (d : Date) (h : ValidDate d) : ValidDate (nextDate d) := by
  obtain ⟨hy, hm1, hm2, hd1, hd2⟩ := h
  unfold nextDate
  split_ifs with h1 h2
  · exact (validDate_iff _ _ _).mpr ⟨hy, hm1, hm2, by omega, by omega⟩
  · exact (validDate_iff _ _ _).mpr ⟨hy, by omega, by omega, le_refl _, daysInMonthL_pos _ _⟩
  · exact (validDate_iff _ _ _).mpr ⟨by omega, by omega, by omega, le_refl _, daysInMonthL_pos _ _⟩

theorem dateIdx_next (d : Date) (h : ValidDate d) :
    dateIdx (nextDate d) = dateIdx d + 1 := by
  obtain ⟨hy, hm1, hm2, hd1, hd2⟩ := h
  unfold nextDate
  split_ifs with h1 h2
  · show yearIdx d.year + monthOffset (isLeapYear d.year) d.month + (d.day + 1 - 1)
      = dateIdx d + 1
    rw [dateIdx_def]; omega
  · show yearIdx d.year + monthOffset (isLeapYear d.year) (d.month + 1) + (1 - 1)
      = dateIdx d + 1
    rw [dateIdx_def, monthOffset_succ _ _ hm1 hm2]; omega
  · show yearIdx (d.year + 1) + monthOffset (isLeapYear (d.year + 1)) 1 + (1 - 1)
      = dateIdx d + 1
    have hm12 : d.month = 12 := by omega
    rw [hm12] at h1 hd2
    have hd31 : d.day = 31 := by
      have h3 := daysInMonthL_twelve (isLeapYear d.year)
      omega
    rw [dateIdx_def, monthOffset_one, yearIdx_succ d.year hy, hm12, hd31,
      monthOffset_twelve]
    split_ifs <;> omega

theorem yearIdx_one : yearIdx 1 = 0 := by decide

theorem prevDate_spec (d : Date) (h : ValidDate d) (hpos : 1 ≤ dateIdx d) :
    ValidDate (prevDate d) ∧ dateIdx (prevDate d) + 1 = dateIdx d := by
  obtain ⟨hy, hm1, hm2, hd1, hd2⟩ := h
  unfold prevDate
  split_ifs with h1 h2
  · refine ⟨(validDate_iff _ _ _).mpr ⟨hy, hm1, hm2, by omega, by omega⟩, ?_⟩
    show yearIdx d.year + monthOffset (isLeapYear d.year) d.month + (d.day - 1 - 1) + 1
      = dateIdx d
    rw [dateIdx_def]; omega
  · refine ⟨(validDate_iff _ _ _).mpr
      ⟨hy, by omega, by omega, daysInMonthL_pos _ _, le_refl _⟩, ?_⟩
    show yearIdx d.year + monthOffset (isLeapYear d.year) (d.month - 1)
        + (daysInMonthL (isLeapYear d.year) (d.month - 1) - 1) + 1 = dateIdx d
    have hsucc := monthOffset_succ (isLeapYear d.year) (d.month - 1) (by omega) (by omega)
    have hmeq : d.month - 1 + 1 = d.month := by omega
    rw [hmeq] at hsucc
    have hz := daysInMonthL_pos (isLeapYear d.year) (d.month - 1)
    rw [dateIdx_def, hsucc]; omega
  · -- day = 1, month = 1: roll back to December 31 of the previous year
    have hm1e : d.month = 1 := by omega
    have hd1e : d.day = 1 := by omega
    have hy2 : 2 ≤ d.year := by
      by_contra hc
      have hy1 : d.year = 1 := by omega
      have hidx : dateIdx d = 0 := by
        rw [dateIdx_def, hy1, hm1e, hd1e, monthOffset_one, yearIdx_one]
      omega
    have hin : d.year - 1 + 1 = d.year := by omega
    have hys := yearIdx_succ (d.year - 1) (by omega)
    rw [hin] at hys
    refine ⟨(validDate_iff _ _ _).mpr
      ⟨by omega, by omega, by omega, by omega, ?_⟩, ?_⟩
    · rw [daysInMonthL_twelve]
    · show yearIdx (d.year - 1) + monthOffset (isLeapYear (d.year - 1)) 12 + (31 - 1) + 1
        = dateIdx d
      rw [dateIdx_def, hm1e, hd1e, monthOffset_one, monthOffset_twelve, hys]
      split_ifs <;> omega

def addDays (d : Date) : Nat → Date
  | 0 => d
  | n + 1 => nextDate (addDays d n)

def subDays (d : Date) : Nat → Date
  | 0 => d
  | n + 1 => prevDate (subDays d n)

theorem addDays_spec (d : Date) (h : ValidDate d) (n : Nat) :
    ValidDate (addDays d n) ∧ dateIdx (addDays d n) = dateIdx d + n := by
  induction n with
  | zero => exact ⟨h, rfl⟩
  | succ k ih =>
    obtain ⟨hv, hi⟩ := ih
    exact ⟨nextDate_valid _ hv, by simp only [addDays, dateIdx_next _ hv]; omega⟩

theorem subDays_spec (d : Date) (h : ValidDate d) (n : Nat) (hn : n ≤ dateIdx d) :
    ValidDate (subDays d n) ∧ dateIdx (subDays d n) = dateIdx d - n := by
  induction n with
  | zero => exact ⟨h, rfl⟩
  | succ k ih =>
    obtain ⟨hv, hi⟩ := ih (by omega)
    obtain ⟨hv2, hi2⟩ := prevDate_spec _ hv (by omega)
    exact ⟨hv2, by simp only [subDays]; omega⟩

theorem addDays_add (d : Date) (a b : Nat) :
    addDays d (a + b) = addDays (addDays d a) b := by
  induction b with
  | zero => rfl
  | succ k ih =>
    show nextDate (addDays d (a + k)) = nextDate (addDays (addDays d a) k)
    rw [ih]

theorem dateKey_lt_next (d : Date) (h : ValidDate d) :
    dateKey d < dateKey (nextDate d) := by
  obtain ⟨hy, hm1, hm2, hd1, hd2⟩ := h
  have h31 := daysInMonthL_le (isLeapYear d.year) d.month
  unfold nextDate
  split_ifs with h1 h2
  · show 10000 * d.year + 100 * d.month + d.day
      < 10000 * d.year + 100 * d.month + (d.day + 1)
    omega
  · show 10000 * d.year + 100 * d.month + d.day
      < 10000 * d.year + 100 * (d.month + 1) + 1
    omega
  · show 10000 * d.year + 100 * d.month + d.day
      < 10000 * (d.year + 1) + 100 * 1 + 1
    omega

theorem addDays_key_gt (d : Date) (h : ValidDate d) (n : Nat) :
    dateKey d < dateKey (addDays d (n + 1)) := by
  induction n with
  | zero => exact dateKey_lt_next d h
  | succ k ih =>
    have hv := (addDays_spec d h (k + 1)).1
    exact lt_trans ih (dateKey_lt_next _ hv)

theorem addDays_key_strictMono (d : Date) (h : ValidDate d) (i j : Nat) (hij : i < j) :
    dateKey (addDays d i) < dateKey (addDays d j) := by
  have hv := (addDays_spec d h i).1
  have he : j = i + (j - i - 1 + 1) := by omega
  rw [he, addDays_add]
  exact addDays_key_gt _ hv _

/-! ### Calendar dimension rows (build_dims.py:125-161 and 232-267) -/

def dayNames : List String :=
  ["Monday", "Tuesday", "Wednesday", "Thursday", "Friday", "Saturday", "Sunday"]

def monthNames : List String :=
  ["January", "February", "March", "April", "May", "June", "July",
   "August", "September", "October", "November", "December"]

/-- One row of `DIM_DATE` / `DIM_DATE_STORE`.  `week_of_year`
(`isocalendar().week`) is omitted: no claim mentions ISO week numbers. -/
structure DateRow where
  date_key : Nat
  full_date : Date
  day : Nat
  day_name : String
  day_of_week : Nat
  is_weekend : Nat
  month : Nat
  month_name : String
  quarter : Nat
  year : Nat
deriving DecidableEq

/-- The row pandas derives for one timestamp: `dayofweek` (Monday = 0) is
`dateIdx d % 7` because 0001-01-01 is a Monday; the code stores
`dayofweek + 1` in `day_of_week` and `(dayofweek >= 5)` in `is_weekend`. -/
def mkDateRow (d : Date) : DateRow :=
  { date_key := dateKey d
    full_date := d
    day := d.day
    day_name := dayNames.getD (dateIdx d % 7) ""
    day_of_week := dateIdx d % 7 + 1
    is_weekend := if 5 ≤ dateIdx d % 7 then 1 else 0
    month := d.month
    month_name := monthNames.getD (d.month - 1) ""
    quarter := (d.month + 2) / 3
    year := d.year }

/-- `pd.date_range(start, end, freq="D")`: one date per day from `start`
to `endD` inclusive (every use in the pipeline has `start ≤ endD`). -/
def date_range (start endD : Date) : List Date :=
  (List.range (dateIdx endD - dateIdx start + 1)).map (addDays start)

def build_date_rows (start endD : Date) : List DateRow :=
  (date_range start endD).map mkDateRow

/-- The calendar-completeness contract: exact row count, no duplicate
`date_key`, consecutive days (no gaps), `date_key` = `YYYYMMDD`, and
`is_weekend` exactly on Saturday / Sunday. -/
def CalendarOK (start endD : Date) (rows : List DateRow) : Prop :=
  rows.length = dateIdx endD - dateIdx start + 1 ∧
  (rows.map (fun r => r.date_key)).Nodup ∧
  List.Chain' (fun a b => b.full_date = nextDate a.full_date) rows ∧
  (∀ r ∈ rows, r.date_key
    = 10000 * r.full_date.year + 100 * r.full_date.month + r.full_date.day) ∧
  (∀ r ∈ rows, (r.is_weekend = 1 ↔ r.day_name = "Saturday" ∨ r.day_name = "Sunday"))

theorem weekend_name_aux : ∀ k : Nat, k < 7 →
    ((if 5 ≤ k then 1 else 0) = 1
      ↔ dayNames.getD k "" = "Saturday" ∨ dayNames.getD k "" = "Sunday") := by
  decide

theorem calendar_ok (start endD : Date) (h : ValidDate start) :
    CalendarOK start endD (build_date_rows start endD) := by
  refine ⟨?_, ?_, ?_, ?_, ?_⟩
  · simp [build_date_rows, date_range]
  · have hmm : (build_date_rows start endD).map (fun r => r.date_key)
        = (List.range (dateIdx endD - dateIdx start + 1)).map
            (fun i => dateKey (addDays start i)) := by
      simp only [build_date_rows, date_range, List.map_map]
      rfl
    rw [hmm]
    refine List.Pairwise.imp ne_of_lt ?_
    rw [List.pairwise_map]
    exact (List.pairwise_lt_range _).imp
      (fun hij => addDays_key_strictMono start h _ _ hij)
  · simp only [build_date_rows, date_range, List.map_map]
    rw [List.chain'_map, List.chain'_range_succ]
    intro i hi
    rfl
  · intro r hr
    obtain ⟨dd, _, rfl⟩ := List.mem_map.mp hr
    rfl
  · intro r hr
    simp only [build_date_rows, date_range, List.map_map] at hr
    obtain ⟨i, _, rfl⟩ := List.mem_map.mp hr
    exact weekend_name_aux (dateIdx (addDays start i) % 7) (Nat.mod_lt _ (by norm_num))

theorem mem_date_range (start endD d : Date) (hs : ValidDate start) (hd : ValidDate d)
    (h1 : dateIdx start ≤ dateIdx d) (h2 : dateIdx d ≤ dateIdx endD) :
    d ∈ date_range start endD := by
  have hspec := addDays_spec start hs (dateIdx d - dateIdx start)
  have he : addDays start (dateIdx d - dateIdx start) = d :=
    dateIdx_inj _ _ hspec.1 hd (by omega)
  exact List.mem_map.mpr ⟨dateIdx d - dateIdx start, List.mem_range.mpr (by omega), he⟩

theorem dateKey_mem_rows (start endD d : Date) (hs : ValidDate start)
    (hd : ValidDate d) (h1 : dateIdx start ≤ dateIdx d) (h2 : dateIdx d ≤ dateIdx endD) :
    dateKey d ∈ (build_date_rows start endD).map (fun r => r.date_key) := by
  refine List.mem_map.mpr ⟨mkDateRow d, ?_, rfl⟩
  exact List.mem_map.mpr ⟨d, mem_date_range start endD d hs hd h1 h2, rfl⟩

/-- `Series.min()` over timestamps (the fold pandas performs). -/
def minByIdx (d : Date) (ds : List Date) : Date :=
  ds.foldl (fun a b => if dateIdx b < dateIdx a then b else a) d

/-- `Series.max()` over timestamps. -/
def maxByIdx (d : Date) (ds : List Date) : Date :=
  ds.foldl (fun a b => if dateIdx a < dateIdx b then b else a) d

theorem minByIdx_spec (ds : List Date) : ∀ d : Date,
    (minByIdx d ds = d ∨ minByIdx d ds ∈ ds)
      ∧ dateIdx (minByIdx d ds) ≤ dateIdx d
      ∧ ∀ x ∈ ds, dateIdx (minByIdx d ds) ≤ dateIdx x := by
  induction ds with
  | nil =>
    intro d
    exact ⟨Or.inl rfl, le_refl _, by intro x hx; simp at hx⟩
  | cons b t ih =>
    intro d
    have hstep : minByIdx d (b :: t) = minByIdx (if dateIdx b < dateIdx d then b else d) t := rfl
    rw [hstep]
    by_cases hc : dateIdx b < dateIdx d
    · rw [if_pos hc]
      obtain ⟨hmem, hled, hall⟩ := ih b
      refine ⟨?_, le_trans hled (le_of_lt hc), ?_⟩
      · rcases hmem with he | hm
        · exact Or.inr (by rw [he]; exact List.mem_cons_self b t)
        · exact Or.inr (List.mem_cons_of_mem _ hm)
      · intro x hx
        rcases List.mem_cons.mp hx with rfl | hx'
        · exact hled
        · exact hall x hx'
    · rw [if_neg hc]
      obtain ⟨hmem, hled, hall⟩ := ih d
      refine ⟨?_, hled, ?_⟩
      · rcases hmem with he | hm
        · exact Or.inl he
        · exact Or.inr (List.mem_cons_of_mem _ hm)
      · intro x hx
        rcases List.mem_cons.mp hx with rfl | hx'
        · omega
        · exact hall x hx'

theorem maxByIdx_spec (ds : List Date) : ∀ d : Date,
    (maxByIdx d ds = d ∨ maxByIdx d ds ∈ ds)
      ∧ dateIdx d ≤ dateIdx (maxByIdx d ds)
      ∧ ∀ x ∈ ds, dateIdx x ≤ dateIdx (maxByIdx d ds) := by
  induction ds with
  | nil =>
    intro d
    exact ⟨Or.inl rfl, le_refl _, by intro x hx; simp at hx⟩
  | cons b t ih =>
    intro d
    have hstep : maxByIdx d (b :: t) = maxByIdx (if dateIdx d < dateIdx b then b else d) t := rfl
    rw [hstep]
    by_cases hc : dateIdx d < dateIdx b
    · rw [if_pos hc]
      obtain ⟨hmem, hled, hall⟩ := ih b
      refine ⟨?_, le_trans (le_of_lt hc) hled, ?_⟩
      · rcases hmem with he | hm
        · exact Or.inr (by rw [he]; exact List.mem_cons_self b t)
        · exact Or.inr (List.mem_cons_of_mem _ hm)
      · intro x hx
        rcases List.mem_cons.mp hx with rfl | hx'
        · exact hled
        · exact hall x hx'
    · rw [if_neg hc]
      obtain ⟨hmem, hled, hall⟩ := ih d
      refine ⟨?_, hled, ?_⟩
      · rcases hmem with he | hm
        · exact Or.inl he
        · exact Or.inr (List.mem_cons_of_mem _ hm)
      · intro x hx
        rcases List.mem_cons.mp hx with rfl | hx'
        · omega
        · exact hall x hx'

/-! ## Derived measures and bucketing functions -/

/-- Round half-to-even to an integer (numpy/pandas rounding mode). -/
def roundHalfEven (q : ℚ) : ℤ :=
  let f := ⌊q⌋
  if q - f < 1/2 then f
  else if 1/2 < q - f then f + 1
  else if f % 2 = 0 then f else f + 1

/-- `Series.round(2)`. -/
def round2 (q : ℚ) : ℚ := (roundHalfEven (q * 100) : ℚ) / 100

/-- `(list_price - sale_price).clip(lower=0)` (standardize_columns.py:264);
a missing operand propagates as missing. -/
def std_discount_amount (l s : Option ℚ) : Option ℚ :=
  match l, s with
  | some lv, some sv => some (max (lv - sv) 0)
  | _, _ => none

/-- `((discount_amount / list_price) * 100).round(2)`
(standardize_columns.py:265).  For `list_price = 0` the float division
yields NaN (`0/0`: the clipped amount is 0 whenever `sale_price ≥ 0`) or
infinity (only reachable with a negative `sale_price`); both non-finite
outcomes are modelled as a missing value. -/
def std_discount_pct (l s : Option ℚ) : Option ℚ :=
  match std_discount_amount l s, l with
  | some a, some lv => if lv = 0 then none else some (round2 (a / lv * 100))
  | _, _ => none

/-- `pd.cut(age, bins=[0,18,30,45,60,120], labels=[...])`
(build_dims.py:114-118): right-closed intervals `(0,18], (18,30], (30,45],
(45,60], (60,120]`; a missing age or an age outside `(0, 120]` gets a
missing label. -/
def age_group_of (age : Option ℚ) : Option String :=
  match age with
  | none => none
  | some a =>
    if 0 < a ∧ a ≤ 18 then some "<18"
    else if 18 < a ∧ a ≤ 30 then some "18-30"
    else if 30 < a ∧ a ≤ 45 then some "31-45"
    else if 45 < a ∧ a ≤ 60 then some "46-60"
    else if 60 < a ∧ a ≤ 120 then some "60+"
    else none

/-- `get_temp_category` (build_facts.py:211-225): classify a temperature
reading, `-1` for a missing one. -/
def get_temp_category (t : Option ℚ) : Int :=
  match t with
  | none => -1
  | some tv =>
    if tv < 32 then 1
    else if tv < 50 then 2
    else if tv < 70 then 3
    else if tv < 85 then 4
    else 5

structure TempDimRow where
  temp_category_key : Int
  temp_category : String
  temp_range_min : ℚ
  temp_range_max : ℚ
deriving DecidableEq

/-- `build_dim_temperature` (build_dims.py:269-288); the free-text
`description` column is omitted. -/
def build_dim_temperature : List TempDimRow :=
  [⟨1, "Freezing", -999, 32⟩,
   ⟨2, "Cold", 32, 50⟩,
   ⟨3, "Cool", 50, 70⟩,
   ⟨4, "Warm", 70, 85⟩,
   ⟨5, "Hot", 85, 999⟩]

/-! ## drop_duplicates -/

/-- `DataFrame.drop_duplicates(subset=key)` keeping the first occurrence;
pandas treats missing key values as equal to each other, so a missing key
is just another key value here. -/
def dedupAux {α κ : Type} [DecidableEq κ] (key : α → κ) : List κ → List α → List α
  | _, [] => []
  | seen, a :: as =>
    if key a ∈ seen then dedupAux key seen as
    else a :: dedupAux key (key a :: seen) as

def drop_duplicatesBy {α κ : Type} [DecidableEq κ] (key : α → κ) (l : List α) : List α :=
  dedupAux key [] l

theorem dedupAux_sound {α κ : Type} [DecidableEq κ] (key : α → κ) (l : List α) :
    ∀ seen : List κ,
      ((dedupAux key seen l).map key).Nodup
      ∧ (∀ k ∈ (dedupAux key seen l).map key, k ∉ seen)
      ∧ ∀ a ∈ dedupAux key seen l, a ∈ l := by
  induction l with
  | nil => intro seen; simp [dedupAux]
  | cons a as ih =>
    intro seen
    by_cases hc : key a ∈ seen
    · simp only [dedupAux, if_pos hc]
      obtain ⟨h1, h2, h3⟩ := ih seen
      exact ⟨h1, h2, fun x hx => List.mem_cons_of_mem _ (h3 x hx)⟩
    · simp only [dedupAux, if_neg hc]
      obtain ⟨h1, h2, h3⟩ := ih (key a :: seen)
      refine ⟨?_, ?_, ?_⟩
      · simp only [List.map_cons, List.nodup_cons]
        exact ⟨fun hmem => (h2 _ hmem) (List.mem_cons_self _ _), h1⟩
      · intro k hk
        simp only [List.map_cons, List.mem_cons] at hk
        rcases hk with rfl | hk'
        · exact hc
        · exact fun hs => (h2 _ hk') (List.mem_cons_of_mem _ hs)
      · intro x hx
        rcases List.mem_cons.mp hx with rfl | hx'
        · exact List.mem_cons_self _ _
        · exact List.mem_cons_of_mem _ (h3 x hx')

theorem drop_duplicatesBy_nodup {α κ : Type} [DecidableEq κ] (key : α → κ)
    (l : List α) : ((drop_duplicatesBy key l).map key).Nodup :=
  (dedupAux_sound key l []).1

theorem drop_duplicatesBy_subset {α κ : Type} [DecidableEq κ] (key : α → κ)
    (l : List α) : ∀ a ∈ drop_duplicatesBy key l, a ∈ l :=
  (dedupAux_sound key l []).2.2

/-- A list with pairwise-distinct key values has at most one element whose
key equals any given value. -/
theorem filter_key_len {α κ : Type} [BEq κ] [LawfulBEq κ] (key : α → κ) (l : List α)
    (h : (l.map key).Nodup) (k : κ) :
    (l.filter (fun a => k == key a)).length ≤ 1 := by
  induction l with
  | nil => simp
  | cons a as ih =>
    simp only [List.map_cons, List.nodup_cons] at h
    obtain ⟨hna, hnd⟩ := h
    by_cases hc : k = key a
    · have hfe : as.filter (fun x => k == key x) = [] := by
        rw [List.filter_eq_nil_iff]
        intro x hx hpx
        rw [beq_iff_eq] at hpx
        exact hna (List.mem_map.mpr ⟨x, hx, by rw [← hpx, hc]⟩)
      have hb : (k == key a) = true := by rw [beq_iff_eq]; exact hc
      rw [List.filter_cons, if_pos hb, hfe]
      simp
    · have hb : (k == key a) = false := by
        rw [beq_eq_false_iff_ne]; exact hc
      rw [List.filter_cons, hb]
      simp only [Bool.false_eq_true, if_false]
      exact ih hnd

/-! ## Standardized source rows -/

/-- One row of `std_customer_purchases.csv`
(standardize_columns.py:150-176): `product_id` already derived from the
product name, the date parsed (`NaT` = missing), flags coerced to 0/1. -/
structure PurchRow where
  customer_id : Option String
  age : Option ℚ
  gender : Option String
  city : Option String
  category : Option String
  product_name : Option String
  product_id : Option String
  purchase_date : Option Date
  purchase_amount : Option ℚ
  payment_method : Option String
  rating : Option ℚ
  discount_applied_flag : Nat
  repeat_customer_flag : Nat
deriving DecidableEq

/-- One row of `std_store_performance.csv` (standardize_columns.py:178-220). -/
structure StoreRow where
  store_id : Option ℚ
  sale_date : Option Date
  weekly_sales : Option ℚ
  temperature : Option ℚ
  fuel_price : Option ℚ
  cpi : Option ℚ
  unemployment : Option ℚ
  holiday_flag : Nat
deriving DecidableEq

/-- One row of `std_ecommerce_sales.csv` (standardize_columns.py:222-278). -/
structure EcomRow where
  ecommerce_id : Option String
  product_name : Option String
  product_id : Option String
  brand : Option String
  root_category : Option String
  sub_category : Option String
  list_price : Option ℚ
  sale_price : Option ℚ
  discount_amount : Option ℚ
  discount_pct : Option ℚ
  is_available : Nat
deriving DecidableEq

/-- The columns `standardize_ecommerce_sales` derives for one row
(standardize_columns.py:248 and 262-265): `product_id` from the name and
the two discount measures from the prices. -/
def mk_std_ecommerce_row
    (ecommerce_id product_name brand root_category sub_category : Option String)
    (list_price sale_price : Option ℚ) (is_available : Nat) : EcomRow :=
  { ecommerce_id := ecommerce_id
    product_name := product_name
    product_id := build_product_id product_name
    brand := brand
    root_category := root_category
    sub_category := sub_category
    list_price := list_price
    sale_price := sale_price
    discount_amount := std_discount_amount list_price sale_price
    discount_pct := std_discount_pct list_price sale_price
    is_available := is_available }

/-! ## DimensionBuilder (build_dims.py) -/

structure CustRow where
  customer_key : Int
  customer_id : Option String
  age : Option ℚ
  gender : Option String
  city : Option String
  age_group : Option String
deriving DecidableEq

/-- `build_dim_customer` (build_dims.py:105-123): de-duplicate on
`customer_id` (a missing id is one key value and is kept), assign
surrogate keys 1..N by row position, derive `age_group`. -/
def build_dim_customer (ps : List PurchRow) : List CustRow :=
  ((drop_duplicatesBy (fun r => r.customer_id) ps).enum).map
    (fun p => ⟨(p.1 : Int) + 1, p.2.customer_id, p.2.age, p.2.gender, p.2.city,
      age_group_of p.2.age⟩)

structure PayRow where
  payment_key : Int
  payment_method : String
deriving DecidableEq

/-- `build_dim_payment` (build_dims.py:163-179): the distinct non-null
payment methods (`dropna().unique()`, first-appearance order), keys 1..N. -/
def build_dim_payment (ps : List PurchRow) : List PayRow :=
  ((drop_duplicatesBy id (ps.filterMap (fun r => r.payment_method))).enum).map
    (fun p => ⟨(p.1 : Int) + 1, p.2⟩)

structure CatRow where
  category_key : Int
  category_name : Option String
  root_category_name : Option String
deriving DecidableEq

/-- `build_dim_category` (build_dims.py:181-209), purchases branch (the
current standardizer never produces `std_walmart_products.csv`, so only
the purchase frame contributes): distinct purchase categories — a missing
category included — with a missing root, de-duplicated on `category_name`. -/
def build_dim_category (ps : List PurchRow) : List CatRow :=
  ((drop_duplicatesBy id (ps.map (fun r => r.category))).enum).map
    (fun p => ⟨(p.1 : Int) + 1, p.2, none⟩)

structure ProdMasterRow where
  product_id : String
  product_name : Option String
  category_name : Option String
  rating : Option ℚ
  source : String
deriving DecidableEq

/-- `first_not_null` (standardize_columns.py:54). -/
def first_not_null {α : Type} (l : List (Option α)) : Option α :=
  (l.filterMap id).head?

/-- Code-point lexicographic order on strings (the order pandas uses for
group-key sorting). -/
def charListLe : List Char → List Char → Bool
  | [], _ => true
  | _ :: _, [] => false
  | a :: as, b :: bs =>
    if a.toNat < b.toNat then true
    else if b.toNat < a.toNat then false
    else charListLe as bs

def strLe (a b : String) : Bool := charListLe a.data b.data

/-- Insertion sort (kernel-computable stand-in for the library sort; the
sorted columns here are duplicate-free, so any sort yields the same
table). -/
def insertLe {α : Type} (le : α → α → Bool) (a : α) : List α → List α
  | [] => [a]
  | b :: t => if le a b then a :: b :: t else b :: insertLe le a t

def sortByLe {α : Type} (le : α → α → Bool) : List α → List α
  | [] => []
  | a :: t => insertLe le a (sortByLe le t)

theorem insertLe_perm {α : Type} (le : α → α → Bool) (a : α) (l : List α) :
    (insertLe le a l).Perm (a :: l) := by
  induction l with
  | nil => exact List.Perm.refl _
  | cons b t ih =>
    by_cases hc : le a b
    · rw [insertLe, if_pos hc]
    · rw [insertLe, if_neg hc]
      exact (ih.cons b).trans (List.Perm.swap a b t)

theorem sortByLe_perm {α : Type} (le : α → α → Bool) (l : List α) :
    (sortByLe le l).Perm l := by
  induction l with
  | nil => exact List.Perm.refl _
  | cons a t ih => exact (insertLe_perm le a (sortByLe le t)).trans (ih.cons a)

/-- `build_product_master` (standardize_columns.py:283-340): group the
purchase rows on non-null `product_id` (`groupby(..., dropna=True)` sorts
the group keys), resolve each attribute with `first_not_null`; `category`
is renamed `category_name`, and the `source` aggregate is the constant
"purchases" since that is the only contributing frame. -/
def build_product_master (ps : List PurchRow) : List ProdMasterRow :=
  ((sortByLe strLe (drop_duplicatesBy id (ps.filterMap (fun r => r.product_id)))).map
    (fun k =>
      let grp := ps.filter (fun r => r.product_id == some k)
      ⟨k, first_not_null (grp.map (fun r => r.product_name)),
        first_not_null (grp.map (fun r => r.category)),
        first_not_null (grp.map (fun r => r.rating)),
        "purchases"⟩))

structure DimProdRow where
  product_key : Int
  product_id : String
  product_name : Option String
  category_name : Option String
  rating : Option ℚ
deriving DecidableEq

/-- `build_dim_product` (build_dims.py:78-103): surrogate keys 1..N on the
product-master rows (the reindexed always-missing columns are omitted). -/
def build_dim_product (pm : List ProdMasterRow) : List DimProdRow :=
  (pm.enum).map
    (fun p => ⟨(p.1 : Int) + 1, p.2.product_id, p.2.product_name,
      p.2.category_name, p.2.rating⟩)

structure StoreDimRow where
  store_key : Int
  store_id : Option ℚ
deriving DecidableEq

/-- `sort_values` order on a nullable numeric column (missing last). -/
def optQLe (a b : Option ℚ) : Bool :=
  match a, b with
  | some x, some y => decide (x ≤ y)
  | some _, none => true
  | none, some _ => false
  | none, none => true

/-- `build_dim_store` (build_dims.py:215-230): distinct `store_id`s,
sorted, keys 1..N (the derived `store_name`/`region` text columns are
omitted). -/
def build_dim_store (sp : List StoreRow) : List StoreDimRow :=
  ((sortByLe optQLe (drop_duplicatesBy id (sp.map (fun r => r.store_id)))).enum).map
    (fun p => ⟨(p.1 : Int) + 1, p.2⟩)

structure EcomProdDimRow where
  ecommerce_product_key : Int
  product_id : Option String
  product_name : Option String
  brand : Option String
  root_category : Option String
  sub_category : Option String
deriving DecidableEq

/-- The five columns `build_dim_ecommerce_product` selects. -/
def ecomProdCols (r : EcomRow) :
    Option String × Option String × Option String × Option String × Option String :=
  (r.product_id, r.product_name, r.brand, r.root_category, r.sub_category)

/-- `build_dim_ecommerce_product` (build_dims.py:294-315): project the five
columns, `drop_duplicates()` over the WHOLE projected row (not over
`product_id`), keys 1..N. -/
def build_dim_ecommerce_product (es : List EcomRow) : List EcomProdDimRow :=
  ((drop_duplicatesBy id (es.map ecomProdCols)).enum).map
    (fun p => ⟨(p.1 : Int) + 1, p.2.1, p.2.2.1, p.2.2.2.1, p.2.2.2.2.1, p.2.2.2.2.2⟩)

structure EcomCatDimRow where
  ecommerce_category_key : Int
  root_category : Option String
  sub_category : Option String
deriving DecidableEq

/-- `build_dim_ecommerce_category` (build_dims.py:317-331): distinct
`(root_category, sub_category)` pairs, keys 1..N. -/
def build_dim_ecommerce_category (es : List EcomRow) : List EcomCatDimRow :=
  ((drop_duplicatesBy id (es.map (fun r => (r.root_category, r.sub_category)))).enum).map
    (fun p => ⟨(p.1 : Int) + 1, p.2.1, p.2.2⟩)

structure BrandDimRow where
  brand_key : Int
  brand : String
deriving DecidableEq

/-- `build_dim_ecommerce_brand` (build_dims.py:333-346): distinct brands,
missing dropped, sorted, keys 1..N. -/
def build_dim_ecommerce_brand (es : List EcomRow) : List BrandDimRow :=
  ((sortByLe strLe ((drop_duplicatesBy id (es.map (fun r => r.brand))).filterMap id)).enum).map
    (fun p => ⟨(p.1 : Int) + 1, p.2⟩)

/-- `build_dim_date` (build_dims.py:125-161): pad the observed purchase
date range by −30/+90 days, or fall back to 2020-01-01..2030-12-31 when no
valid purchase date exists (also when the purchases table is absent). -/
def dim_date_bounds (ps : Option (List PurchRow)) : Date × Date :=
  match (ps.getD []).filterMap (fun r => r.purchase_date) with
  | [] => (⟨2020, 1, 1⟩, ⟨2030, 12, 31⟩)
  | d :: rest => (subDays (minByIdx d rest) 30, addDays (maxByIdx d rest) 90)

def build_dim_date (ps : Option (List PurchRow)) : List DateRow :=
  build_date_rows (dim_date_bounds ps).1 (dim_date_bounds ps).2

/-- `build_dim_date_store` (build_dims.py:232-267): the observed sale-date
range without padding; `None` when there is no valid date. -/
def build_dim_date_store (sp : List StoreRow) : Option (List DateRow) :=
  match sp.filterMap (fun r => r.sale_date) with
  | [] => none
  | d :: rest => some (build_date_rows (minByIdx d rest) (maxByIdx d rest))

/-! ## FactBuilder (build_facts.py) -/

/-- `pd.merge(left, dim, how="left")` on a key predicate: every left row
is kept; it fans out over all matching dimension rows and carries `none`
when no dimension row matches (the joined columns become NaN). -/
def pd_left_merge {α β : Type} (left : List α) (dim : List β) (p : α → β → Bool) :
    List (α × Option β) :=
  left.flatMap (fun l =>
    match dim.filter (p l) with
    | [] => [(l, none)]
    | ms => ms.map (fun r => (l, some r)))

/-- The fillna(-1) sentinel lookup applied to each merged key column
(`fact[k] = fact[k].fillna(-1).astype(int)`). -/
def key_or_sentinel {β : Type} (key : β → Int) (o : Option β) : Int :=
  match o with
  | some d => key d
  | none => -1

/-- `date_key` from a parsed date column: `YYYYMMDD`, `-1` for `NaT`
(`to_numeric(strftime(...)).fillna(-1)`, build_facts.py:113-114). -/
def date_key_of (d : Option Date) : Int :=
  match d with
  | some dd => (dateKey dd : Int)
  | none => -1

structure FactSalesRow where
  sale_id : Int
  date_key : Int
  customer_key : Int
  product_key : Int
  payment_key : Int
  category_key : Int
  purchase_amount : ℚ
  discount_applied : Nat
  rating : ℚ
  repeat_customer : Nat
deriving DecidableEq

/-- The dimension joins, fact-key assignment, measure fills and sentinel
fills of `build_fact_sales` (build_facts.py:110-185), with every dimension
table present. -/
def fact_sales_rows (ps : List PurchRow) (dimP : List DimProdRow)
    (dimC : List CustRow) (dimPay : List PayRow) (dimCat : List CatRow) :
    List FactSalesRow :=
  let s1 := pd_left_merge ps dimP (fun f d => f.product_id == some d.product_id)
  let s2 := pd_left_merge s1 dimC (fun f d => f.1.customer_id == d.customer_id)
  let s3 := pd_left_merge s2 dimPay (fun f d => f.1.1.payment_method == some d.payment_method)
  let s4 := pd_left_merge s3 dimCat (fun f d => f.1.1.1.category == d.category_name)
  (s4.enum).map (fun p =>
    let r := p.2.1.1.1.1
    { sale_id := (p.1 : Int) + 1
      date_key := date_key_of r.purchase_date
      customer_key := key_or_sentinel (fun c => c.customer_key) p.2.1.1.2
      product_key := key_or_sentinel (fun d => d.product_key) p.2.1.1.1.2
      payment_key := key_or_sentinel (fun d => d.payment_key) p.2.1.2
      category_key := key_or_sentinel (fun d => d.category_key) p.2.2
      purchase_amount := r.purchase_amount.getD 0
      discount_applied := r.discount_applied_flag
      rating := r.rating.getD 0
      repeat_customer := r.repeat_customer_flag })

structure FactStoreRow where
  performance_id : Int
  date_key : Int
  store_key : Int
  temp_category_key : Int
  weekly_sales : ℚ
  temperature : ℚ
  fuel_price : ℚ
  cpi : ℚ
  unemployment : ℚ
  holiday_flag : Nat
deriving DecidableEq

/-- `build_fact_store_performance` core (build_facts.py:196-266): one
store join, inline temperature classification, measure fills. -/
def fact_store_rows (sp : List StoreRow) (dimS : List StoreDimRow) : List FactStoreRow :=
  let s1 := pd_left_merge sp dimS (fun f d => f.store_id == d.store_id)
  (s1.enum).map (fun p =>
    let r := p.2.1
    { performance_id := (p.1 : Int) + 1
      date_key := date_key_of r.sale_date
      store_key := key_or_sentinel (fun s => s.store_key) p.2.2
      temp_category_key := get_temp_category r.temperature
      weekly_sales := r.weekly_sales.getD 0
      temperature := r.temperature.getD 0
      fuel_price := r.fuel_price.getD 0
      cpi := r.cpi.getD 0
      unemployment := r.unemployment.getD 0
      holiday_flag := r.holiday_flag })

structure FactEcomRow where
  ecommerce_sale_id : Int
  ecommerce_product_key : Int
  ecommerce_category_key : Int
  brand_key : Int
  list_price : ℚ
  sale_price : ℚ
  discount_amount : ℚ
  discount_pct : ℚ
  available_flag : Nat
deriving DecidableEq

/-- `build_fact_ecommerce_sales` core (build_facts.py:277-347).
`available_flag` is the constant 0: the code tests for a raw `available`
column that the standardized table does not carry (it was renamed
`is_available`), so the else-branch always runs. -/
def fact_ecom_rows (es : List EcomRow) (dimEP : List EcomProdDimRow)
    (dimEC : List EcomCatDimRow) (dimEB : List BrandDimRow) : List FactEcomRow :=
  let s1 := pd_left_merge es dimEP (fun f d => f.product_id == d.product_id)
  let s2 := pd_left_merge s1 dimEC
    (fun f d => (f.1.root_category, f.1.sub_category) == (d.root_category, d.sub_category))
  let s3 := pd_left_merge s2 dimEB (fun f d => f.1.1.brand == some d.brand)
  (s3.enum).map (fun p =>
    let r := p.2.1.1.1
    { ecommerce_sale_id := (p.1 : Int) + 1
      ecommerce_product_key :=
        key_or_sentinel (fun d => d.ecommerce_product_key) p.2.1.1.2
      ecommerce_category_key :=
        key_or_sentinel (fun d => d.ecommerce_category_key) p.2.1.2
      brand_key := key_or_sentinel (fun d => d.brand_key) p.2.2
      list_price := r.list_price.getD 0
      sale_price := r.sale_price.getD 0
      discount_amount := r.discount_amount.getD 0
      discount_pct := r.discount_pct.getD 0
      available_flag := 0 })

/-- Result of one fact-builder call: the source table may be missing
(Python returns `None`), the build may raise an uncaught exception, or it
produces a table. -/
inductive BuildResult (α : Type) where
  | skipped : BuildResult α
  | raised : String → BuildResult α
  | built : α → BuildResult α
deriving DecidableEq

/-- `build_fact_sales` (build_facts.py:104-185) with nullable inputs: a
missing source returns `None`; a missing dimension skips only that merge,
so the final unconditional column selection
`fact[[..., "customer_key", ...]]` raises `KeyError` for the
never-created key column — the `is not None` guards protect the merges,
not the selection. -/
def build_fact_sales (ps : Option (List PurchRow)) (dimP : Option (List DimProdRow))
    (dimC : Option (List CustRow)) (dimPay : Option (List PayRow))
    (dimCat : Option (List CatRow)) : BuildResult (List FactSalesRow) :=
  match ps with
  | none => .skipped
  | some psv =>
    match dimP, dimC, dimPay, dimCat with
    | some a, some b, some c, some d => .built (fact_sales_rows psv a b c d)
    | _, _, _, _ => .raised "KeyError: fact column selection"

/-- `build_fact_store_performance` (build_facts.py:190-266); a missing
`DIM_STORE` leaves `store_key` uncreated and the selection raises. -/
def build_fact_store_performance (sp : Option (List StoreRow))
    (dimS : Option (List StoreDimRow)) : BuildResult (List FactStoreRow) :=
  match sp with
  | none => .skipped
  | some spv =>
    match dimS with
    | some a => .built (fact_store_rows spv a)
    | none => .raised "KeyError: fact column selection"

/-- `build_fact_ecommerce_sales` (build_facts.py:271-347); any missing
e-commerce dimension leaves its key column uncreated and the selection
raises. -/
def build_fact_ecommerce_sales (es : Option (List EcomRow))
    (dimEP : Option (List EcomProdDimRow)) (dimEC : Option (List EcomCatDimRow))
    (dimEB : Option (List BrandDimRow)) : BuildResult (List FactEcomRow) :=
  match es with
  | none => .skipped
  | some esv =>
    match dimEP, dimEC, dimEB with
    | some a, some b, some c => .built (fact_ecom_rows esv a b c)
    | _, _, _ => .raised "KeyError: fact column selection"

/-- Sequencing of one step of `build_all`'s dict literal: a raised
exception propagates. -/
def runStep {α : Type} : BuildResult α → Except String (Option α)
  | .skipped => .ok none
  | .raised m => .error m
  | .built t => .ok (some t)

/-- `FactBuilder.build_all` (build_facts.py:349-364): the three builders
run in dict-literal order with no exception handling, so a raise in one
aborts the remaining builders. -/
def build_all_facts (ps : Option (List PurchRow)) (sp : Option (List StoreRow))
    (es : Option (List EcomRow))
    (dimP : Option (List DimProdRow)) (dimC : Option (List CustRow))
    (dimPay : Option (List PayRow)) (dimCat : Option (List CatRow))
    (dimS : Option (List StoreDimRow))
    (dimEP : Option (List EcomProdDimRow)) (dimEC : Option (List EcomCatDimRow))
    (dimEB : Option (List BrandDimRow)) :
    Except String
      (Option (List FactSalesRow) × Option (List FactStoreRow) × Option (List FactEcomRow)) := do
  let s ← runStep (build_fact_sales ps dimP dimC dimPay dimCat)
  let t ← runStep (build_fact_store_performance sp dimS)
  let e ← runStep (build_fact_ecommerce_sales es dimEP dimEC dimEB)
  return (s, t, e)

/-! ## DataQualityChecker (quality_checks.py) -/

/-- One `QualityCheckResult` (quality_checks.py:36-46); the `details` dict
and timestamp carry no checked content and are omitted. -/
structure QualityCheckResult where
  check_name : String
  stage : String
  table_name : String
  passed : Bool
  message : String
deriving DecidableEq

/-- `QualityReport.passed` (quality_checks.py:58-60). -/
def report_passed (results : List QualityCheckResult) : Bool :=
  results.all (fun r => r.passed)

def summary_total (results : List QualityCheckResult) : Nat := results.length

def summary_passed (results : List QualityCheckResult) : Nat :=
  (results.filter (fun r => r.passed)).length

/-- `failed = total - passed` (quality_checks.py:64-66). -/
def summary_failed (results : List QualityCheckResult) : Nat :=
  summary_total results - summary_passed results

structure FailedCheckEntry where
  stage : String
  table : String
  check : String
  message : String
deriving DecidableEq

/-- The `failed_checks` list of the summary (quality_checks.py:83-86). -/
def failed_checks (results : List QualityCheckResult) : List FailedCheckEntry :=
  (results.filter (fun r => !r.passed)).map
    (fun r => ⟨r.stage, r.table_name, r.check_name, r.message⟩)

/-- Outcome of `check_foreign_key` (quality_checks.py:219-255): orphans
are non-sentinel fact keys absent from the dimension key set, sentinels
are the `-1` values; the check passes only when both counts are zero.
Fact FK columns are integral and non-null after the build, so the
`dropna()` steps are the identity here. -/
structure FKCheckOut where
  orphan_count : Nat
  sentinel_count : Nat
  passed : Bool
deriving DecidableEq

def check_foreign_key (factKeys : List Int) (dimKeys : List Int) : FKCheckOut :=
  let valid := drop_duplicatesBy id dimKeys
  let orphaned := factKeys.filter (fun k => !(valid.contains k) && k != -1)
  let sentinel := (factKeys.filter (fun k => k == -1)).length
  ⟨orphaned.length, sentinel, orphaned.length == 0 && sentinel == 0⟩

/-! ## Merge and dimension-key lemmas -/

/-- Against a dimension with at most one match per key, a left merge is a
plain per-row lookup: no row is dropped and none is duplicated. -/
theorem pd_left_merge_eq_map {α β : Type} (left : List α) (dim : List β)
    (p : α → β → Bool) (h : ∀ l : α, (dim.filter (p l)).length ≤ 1) :
    pd_left_merge left dim p = left.map (fun l => (l, (dim.filter (p l)).head?)) := by
  induction left with
  | nil => rfl
  | cons a as ih =>
    have hstep : pd_left_merge (a :: as) dim p
        = (match dim.filter (p a) with
           | [] => [(a, none)]
           | ms => ms.map (fun r => (a, some r))) ++ pd_left_merge as dim p := by
      simp [pd_left_merge, List.flatMap_cons]
    rw [hstep, ih, List.map_cons]
    cases hf : dim.filter (p a) with
    | nil => simp
    | cons x xs =>
      have hlen := h a
      rw [hf] at hlen
      have hx : xs = [] := by
        have : xs.length = 0 := by simpa using hlen
        exact List.eq_nil_of_length_eq_zero this
      subst hx
      simp

theorem pd_left_merge_length {α β : Type} (left : List α) (dim : List β)
    (p : α → β → Bool) (h : ∀ l : α, (dim.filter (p l)).length ≤ 1) :
    (pd_left_merge left dim p).length = left.length := by
  rw [pd_left_merge_eq_map left dim p h, List.length_map]

/-- Every merged row keeps a left row, and its joined part is either
missing or an actual dimension row. -/
theorem pd_left_merge_mem {α β : Type} {left : List α} {dim : List β}
    {p : α → β → Bool} {x : α × Option β} (hx : x ∈ pd_left_merge left dim p) :
    x.1 ∈ left ∧ (x.2 = none ∨ ∃ d ∈ dim, x.2 = some d) := by
  simp only [pd_left_merge, List.mem_flatMap] at hx
  obtain ⟨a, ha, hmem⟩ := hx
  cases hf : dim.filter (p a) with
  | nil =>
    rw [hf] at hmem
    simp only [List.mem_singleton] at hmem
    subst hmem
    exact ⟨ha, Or.inl rfl⟩
  | cons y ys =>
    rw [hf] at hmem
    obtain ⟨r, hr, rfl⟩ := List.mem_map.mp hmem
    exact ⟨ha, Or.inr ⟨r, List.mem_of_mem_filter (hf ▸ hr), rfl⟩⟩

theorem enum_def {α : Type} (l : List α) : l.enum = List.enumFrom 0 l := rfl

/-- Mapping a constructor over a list and then projecting a field that
restores the element is the identity. -/
theorem map_proj_map_mk {α β : Type} (l : List α) (mk : α → β) (fld : β → α)
    (h : ∀ a, fld (mk a) = a) : (l.map mk).map fld = l := by
  induction l with
  | nil => rfl
  | cons a as ih => simp only [List.map_cons, h, ih]

/-- A projected field of rows built by enumerate-and-construct equals the
projection of the underlying rows. -/
theorem enumFrom_map_map {α β γ : Type} (l : List α) (mk : Nat × α → β)
    (fld : β → γ) (g : α → γ) (h : ∀ i a, fld (mk (i, a)) = g a) :
    ∀ n : Nat, ((List.enumFrom n l).map mk).map fld = l.map g := by
  induction l with
  | nil => intro n; rfl
  | cons a as ih =>
    intro n
    show fld (mk (n, a)) :: ((List.enumFrom (n + 1) as).map mk).map fld = g a :: as.map g
    rw [h, ih]

theorem mem_of_mem_enumFrom {α : Type} {x : Nat × α} :
    ∀ {l : List α} {n : Nat}, x ∈ List.enumFrom n l → x.2 ∈ l := by
  intro l
  induction l with
  | nil => intro n h; simp [List.enumFrom] at h
  | cons a as ih =>
    intro n h
    rcases List.mem_cons.mp h with he | h'
    · rw [he]; exact List.mem_cons_self _ _
    · exact List.mem_cons_of_mem _ (ih h')

/-- Key-column distinctness of each dimension built by de-duplication. -/
theorem dim_customer_keys_nodup (ps : List PurchRow) :
    ((build_dim_customer ps).map (fun r => r.customer_id)).Nodup := by
  rw [build_dim_customer, enum_def,
    enumFrom_map_map _ _ _ (fun r : PurchRow => r.customer_id) (fun i a => rfl) 0]
  exact drop_duplicatesBy_nodup _ ps

theorem dim_payment_keys_nodup (ps : List PurchRow) :
    ((build_dim_payment ps).map (fun r => some r.payment_method
      : PayRow → Option String)).Nodup := by
  rw [build_dim_payment, enum_def,
    enumFrom_map_map _ _ _ (fun m : String => some m) (fun i a => rfl) 0]
  have h0 : (drop_duplicatesBy id (ps.filterMap (fun r => r.payment_method))).Nodup := by
    simpa using drop_duplicatesBy_nodup id _
  exact h0.map (Option.some_injective String)

theorem dim_category_keys_nodup (ps : List PurchRow) :
    ((build_dim_category ps).map (fun r => r.category_name)).Nodup := by
  rw [build_dim_category, enum_def,
    enumFrom_map_map _ _ _ (fun c : Option String => c) (fun i a => rfl) 0]
  exact drop_duplicatesBy_nodup id _

theorem product_master_ids_nodup (ps : List PurchRow) :
    ((build_product_master ps).map (fun r => r.product_id)).Nodup := by
  rw [build_product_master, map_proj_map_mk _ _ _ (fun a => rfl)]
  have hperm := sortByLe_perm strLe
    (drop_duplicatesBy id (ps.filterMap (fun r => r.product_id)))
  exact hperm.nodup_iff.mpr (by simpa using drop_duplicatesBy_nodup id _)

theorem dim_product_keys_nodup (ps : List PurchRow) :
    ((build_dim_product (build_product_master ps)).map
      (fun r => some r.product_id : DimProdRow → Option String)).Nodup := by
  rw [build_dim_product, enum_def,
    enumFrom_map_map _ _ _ (fun a : ProdMasterRow => some a.product_id) (fun i a => rfl) 0]
  have := (product_master_ids_nodup ps).map (Option.some_injective String)
  simpa [List.map_map, Function.comp] using this

theorem dim_store_keys_nodup (sp : List StoreRow) :
    ((build_dim_store sp).map (fun r => r.store_id)).Nodup := by
  rw [build_dim_store, enum_def,
    enumFrom_map_map _ _ _ (fun a : Option ℚ => a) (fun i a => rfl) 0]
  have hperm := sortByLe_perm optQLe
    (drop_duplicatesBy id (sp.map (fun r => r.store_id)))
  have hnd := hperm.nodup_iff.mpr
    (by simpa using drop_duplicatesBy_nodup id (sp.map (fun r => r.store_id)))
  simpa using hnd

theorem dim_ecom_category_keys_nodup (es : List EcomRow) :
    ((build_dim_ecommerce_category es).map
      (fun r => (r.root_category, r.sub_category))).Nodup := by
  rw [build_dim_ecommerce_category, enum_def,
    enumFrom_map_map _ _ _
      (fun a : Option String × Option String => (a.1, a.2)) (fun i a => rfl) 0]
  simpa using drop_duplicatesBy_nodup id _

theorem dim_ecom_brand_keys_nodup (es : List EcomRow) :
    ((build_dim_ecommerce_brand es).map
      (fun r => some r.brand : BrandDimRow → Option String)).Nodup := by
  rw [build_dim_ecommerce_brand, enum_def,
    enumFrom_map_map _ _ _ (fun a : String => some a) (fun i a => rfl) 0]
  have hperm := sortByLe_perm strLe
    ((drop_duplicatesBy id (es.map (fun r => r.brand))).filterMap id)
  have hnd0 : ((drop_duplicatesBy id (es.map (fun r => r.brand))).filterMap id).Nodup := by
    refine List.Nodup.filterMap ?_ ?_
    · intro a a' b hb hb'
      cases a <;> cases a' <;> simp_all
    · simpa using drop_duplicatesBy_nodup id (es.map (fun r => r.brand))
  exact (hperm.nodup_iff.mpr hnd0).map (Option.some_injective String)

/-- A key attached by a left merge is the sentinel `-1` or the key of an
actual dimension row. -/
theorem merged_key_sound {α β : Type} {left : List α} {dim : List β}
    {p : α → β → Bool} {x : α × Option β} (hx : x ∈ pd_left_merge left dim p)
    (key : β → Int) :
    key_or_sentinel key x.2 = -1 ∨ key_or_sentinel key x.2 ∈ dim.map key := by
  rcases (pd_left_merge_mem hx).2 with hn | ⟨d, hd, he⟩
  · rw [hn]; exact Or.inl rfl
  · rw [he]; exact Or.inr (List.mem_map.mpr ⟨d, hd, rfl⟩)

/-- FACT_SALES row-count parity: all four dimensions are de-duplicated on
their join key, so no merge fans out and no row is dropped. -/
theorem fact_sales_parity (ps : List PurchRow) :
    (fact_sales_rows ps (build_dim_product (build_product_master ps))
      (build_dim_customer ps) (build_dim_payment ps)
      (build_dim_category ps)).length = ps.length := by
  simp only [fact_sales_rows]
  rw [List.length_map, List.enum_length]
  set dimP := build_dim_product (build_product_master ps) with hdP
  set dimC := build_dim_customer ps with hdC
  set dimPay := build_dim_payment ps with hdPay
  set dimCat := build_dim_category ps with hdCat
  set s1 := pd_left_merge ps dimP (fun f d => f.product_id == some d.product_id) with hs1
  set s2 := pd_left_merge s1 dimC (fun f d => f.1.customer_id == d.customer_id) with hs2
  set s3 := pd_left_merge s2 dimPay
    (fun f d => f.1.1.payment_method == some d.payment_method) with hs3
  have h1 : s1.length = ps.length := by
    rw [hs1]
    exact pd_left_merge_length _ _ _ (fun l =>
      filter_key_len (fun d : DimProdRow => some d.product_id) dimP
        (by rw [hdP]; exact dim_product_keys_nodup ps) l.product_id)
  have h2 : s2.length = s1.length := by
    rw [hs2]
    exact pd_left_merge_length _ _ _ (fun l =>
      filter_key_len (fun d : CustRow => d.customer_id) dimC
        (by rw [hdC]; exact dim_customer_keys_nodup ps) l.1.customer_id)
  have h3 : s3.length = s2.length := by
    rw [hs3]
    exact pd_left_merge_length _ _ _ (fun l =>
      filter_key_len (fun d : PayRow => some d.payment_method) dimPay
        (by rw [hdPay]; exact dim_payment_keys_nodup ps) l.1.1.payment_method)
  have h4 : (pd_left_merge s3 dimCat
      (fun f d => f.1.1.1.category == d.category_name)).length = s3.length :=
    pd_left_merge_length _ _ _ (fun l =>
      filter_key_len (fun d : CatRow => d.category_name) dimCat
        (by rw [hdCat]; exact dim_category_keys_nodup ps) l.1.1.1.category)
  rw [h4, h3, h2, h1]

/-- FACT_STORE_PERFORMANCE row-count parity. -/
theorem fact_store_parity (sp : List StoreRow) :
    (fact_store_rows sp (build_dim_store sp)).length = sp.length := by
  simp only [fact_store_rows]
  rw [List.length_map, List.enum_length]
  exact pd_left_merge_length _ _ _ (fun l =>
    filter_key_len (fun d : StoreDimRow => d.store_id) _
      (dim_store_keys_nodup sp) l.store_id)

/-- FACT_ECOMMERCE_SALES row-count parity holds only when the product
dimension's `product_id` column happens to be duplicate-free (its
`drop_duplicates()` runs over the whole row, not over the join key). -/
theorem fact_ecom_parity (es : List EcomRow)
    (hP : ((build_dim_ecommerce_product es).map (fun d => d.product_id)).Nodup) :
    (fact_ecom_rows es (build_dim_ecommerce_product es)
      (build_dim_ecommerce_category es) (build_dim_ecommerce_brand es)).length
      = es.length := by
  simp only [fact_ecom_rows]
  rw [List.length_map, List.enum_length]
  set dimEP := build_dim_ecommerce_product es with hdEP
  set dimEC := build_dim_ecommerce_category es with hdEC
  set dimEB := build_dim_ecommerce_brand es with hdEB
  set s1 := pd_left_merge es dimEP (fun f d => f.product_id == d.product_id) with hs1
  set s2 := pd_left_merge s1 dimEC
    (fun f d => (f.1.root_category, f.1.sub_category)
      == (d.root_category, d.sub_category)) with hs2
  have h1 : s1.length = es.length := by
    rw [hs1]
    exact pd_left_merge_length _ _ _ (fun l =>
      filter_key_len (fun d : EcomProdDimRow => d.product_id) dimEP
        (by rw [hdEP]; exact hP) l.product_id)
  have h2 : s2.length = s1.length := by
    rw [hs2]
    exact pd_left_merge_length _ _ _ (fun l =>
      filter_key_len (fun d : EcomCatDimRow => (d.root_category, d.sub_category)) dimEC
        (by rw [hdEC]; exact dim_ecom_category_keys_nodup es)
        (l.1.root_category, l.1.sub_category))
  have h3 : (pd_left_merge s2 dimEB
      (fun f d => f.1.1.brand == some d.brand)).length = s2.length :=
    pd_left_merge_length _ _ _ (fun l =>
      filter_key_len (fun d : BrandDimRow => some d.brand) dimEB
        (by rw [hdEB]; exact dim_ecom_brand_keys_nodup es) l.1.1.brand)
  rw [h3, h2, h1]

/-! ### Helpers for the observed date bounds -/

theorem dateIdx_ge_365 (d : Date) (h2 : 2 ≤ d.year) : 365 ≤ dateIdx d := by
  have hm := yearIdx_mono 2 d.year h2
  have h365 : yearIdx 2 = 365 := by decide
  have hl := yearIdx_le_dateIdx d
  omega

theorem minByIdx_mem (d0 : Date) (rest : List Date) : minByIdx d0 rest ∈ d0 :: rest := by
  obtain ⟨hm, _, _⟩ := minByIdx_spec rest d0
  rcases hm with he | hm
  · rw [he]; exact List.mem_cons_self _ _
  · exact List.mem_cons_of_mem _ hm

theorem minByIdx_le_all (d0 : Date) (rest : List Date) (d : Date) (hd : d ∈ d0 :: rest) :
    dateIdx (minByIdx d0 rest) ≤ dateIdx d := by
  obtain ⟨_, hle, hall⟩ := minByIdx_spec rest d0
  rcases List.mem_cons.mp hd with rfl | h
  · exact hle
  · exact hall d h

theorem maxByIdx_mem (d0 : Date) (rest : List Date) : maxByIdx d0 rest ∈ d0 :: rest := by
  obtain ⟨hm, _, _⟩ := maxByIdx_spec rest d0
  rcases hm with he | hm
  · rw [he]; exact List.mem_cons_self _ _
  · exact List.mem_cons_of_mem _ hm

theorem maxByIdx_ge_all (d0 : Date) (rest : List Date) (d : Date) (hd : d ∈ d0 :: rest) :
    dateIdx d ≤ dateIdx (maxByIdx d0 rest) := by
  obtain ⟨_, hle, hall⟩ := maxByIdx_spec rest d0
  rcases List.mem_cons.mp hd with rfl | h
  · exact hle
  · exact hall d h

theorem dateKey_mem_rows_int (start endD d : Date) (hs : ValidDate start)
    (hd : ValidDate d) (h1 : dateIdx start ≤ dateIdx d)
    (h2 : dateIdx d ≤ dateIdx endD) :
    (dateKey d : Int) ∈ (build_date_rows start endD).map (fun r => (r.date_key : Int)) := by
  refine List.mem_map.mpr ⟨mkDateRow d, ?_, rfl⟩
  exact List.mem_map.mpr ⟨d, mem_date_range start endD d hs hd h1 h2, rfl⟩

theorem filter_split_len {α : Type} (p : α → Bool) (l : List α) :
    (l.filter p).length + (l.filter (fun x => !(p x))).length = l.length := by
  induction l with
  | nil => rfl
  | cons a as ih =>
    by_cases hc : p a
    · rw [List.filter_cons, List.filter_cons, if_pos hc, if_neg (by simp [hc])]
      simp only [List.length_cons]
      omega
    · rw [List.filter_cons, List.filter_cons, if_neg (by simp [hc]),
        if_pos (by simp [hc])]
      simp only [List.length_cons]
      omega

/-- A row used by concrete witnesses. -/
def samplePurchRow : PurchRow :=
  { customer_id := some "C1", age := some 30, gender := some "F", city := some "X",
    category := some "Electronics", product_name := some "Sony TV",
    product_id := some "PROD_2d67b74388", purchase_date := some ⟨2024, 1, 15⟩,
    purchase_amount := some 100, payment_method := some "Card", rating := some 4,
    discount_applied_flag := 0, repeat_customer_flag := 1 }

/-! ## Claim theorems -/

/-- C1: two product-name strings that normalize identically (lower-case,
non-alphanumeric runs collapsed to one space, whitespace trimmed and
collapsed) receive the same `product_id`; the id is a pure function of the
normalized name — the literal `"PROD_"` followed by the first 10 hex
characters of the MD5 digest — so re-running the standardizer on the same
input always reproduces it. -/
theorem c1_product_id_determinism (s t : String)
    (h : normalize_product_name s = normalize_product_name t) :
    build_product_id (some s) = build_product_id (some t)
    ∧ build_product_id (some s) = build_product_id (some s)
    ∧ (normalize_product_name s ≠ "" →
        build_product_id (some s)
          = some ("PROD_" ++ ⟨(md5HexAscii (normalize_product_name s)).data.take 10⟩)) := by
  refine ⟨?_, rfl, ?_⟩
  · simp only [build_product_id, h]
  · intro hne
    simp only [build_product_id, if_neg hne]

set_option maxRecDepth 100000 in
theorem c1_product_id_determinism_witness :
    normalize_product_name "Sony TV" = normalize_product_name "SONY-TV"
    ∧ build_product_id (some "Sony TV") = build_product_id (some "SONY-TV") :=
  ⟨by decide, (c1_product_id_determinism "Sony TV" "SONY-TV" (by decide)).1⟩

/-- C4: the code evaluated at the failing input — the purchases source is
present but `DIM_CUSTOMER.csv` is missing (`dim_customer = None`):
`build_fact_sales` raises `KeyError` at the final column selection instead
of completing with a sentinel-filled `customer_key`, and `build_all`
propagates the exception, so the remaining fact builders never run. -/
theorem c4_missing_dim_raises :
    build_fact_sales (some [samplePurchRow]) (some []) none (some []) (some [])
      = .raised "KeyError: fact column selection"
    ∧ build_all_facts (some [samplePurchRow]) (some []) (some [])
        (some []) none (some []) (some []) (some []) (some []) (some []) (some [])
      = .error "KeyError: fact column selection" :=
  ⟨rfl, rfl⟩

theorem roundHalfEven_eq_low (q : ℚ) (n : ℤ) (h1 : (n : ℚ) ≤ q)
    (h2 : q - n < 1 / 2) : roundHalfEven q = n := by
  have hf : ⌊q⌋ = n := by
    rw [Int.floor_eq_iff]
    exact ⟨h1, by linarith⟩
  simp only [roundHalfEven]
  rw [hf, if_pos h2]

theorem round2_eval (q : ℚ) (n : ℤ) (h1 : (n : ℚ) ≤ q * 100)
    (h2 : q * 100 - n < 1 / 2) : round2 q = (n : ℚ) / 100 := by
  unfold round2
  rw [roundHalfEven_eq_low (q * 100) n h1 h2]

theorem max_sub_eq (l s v : ℚ) (h : l - s = v) (hv : 0 ≤ v) : max (l - s) 0 = v := by
  rw [h]; exact max_eq_left hv

/-- C5 counterexample: at `list_price = 3, sale_price = 2` the code stores
`discount_pct = 33.33` (the division is rounded to 2 decimals by
`.round(2)`), while the claim's formula
`discount_amount / list_price * 100` gives `100/3 = 33.333…`. -/
theorem c5_discount_pct_rounding_cex :
    std_discount_amount (some 3) (some 2) = some 1
    ∧ std_discount_pct (some 3) (some 2) = some (3333 / 100)
    ∧ (3333 / 100 : ℚ) ≠ 1 / 3 * 100 := by
  have hm : max ((3 : ℚ) - 2) 0 = 1 := max_sub_eq 3 2 1 (by norm_num) (by norm_num)
  refine ⟨?_, ?_, by norm_num⟩
  · simp only [std_discount_amount, hm]
  · simp only [std_discount_pct, std_discount_amount, hm]
    rw [if_neg (by norm_num : ¬(3 : ℚ) = 0)]
    rw [round2_eval _ 3333 (by push_cast; norm_num) (by push_cast; norm_num)]
    norm_num

/-- C5 amended: `discount_amount = max(list_price − sale_price, 0)` (never
negative), and for a non-zero `list_price`,
`discount_pct = (discount_amount / list_price * 100)` rounded half-to-even
to 2 decimal places; a zero `list_price` yields a missing `discount_pct`
rather than an error.  At `list_price = 100, sale_price = 75` this gives
`discount_amount = 25` and `discount_pct = 25.0`. -/
theorem c5_discount_derivation (l s : ℚ) :
    std_discount_amount (some l) (some s) = some (max (l - s) 0)
    ∧ 0 ≤ max (l - s) 0
    ∧ (l ≠ 0 →
        std_discount_pct (some l) (some s) = some (round2 (max (l - s) 0 / l * 100)))
    ∧ std_discount_pct (some 0) (some 0) = none
    ∧ std_discount_amount (some 100) (some 75) = some 25
    ∧ std_discount_pct (some 100) (some 75) = some 25 := by
  have hm : max ((100 : ℚ) - 75) 0 = 25 := max_sub_eq 100 75 25 (by norm_num) (by norm_num)
  refine ⟨rfl, le_max_right _ _, ?_, ?_, ?_, ?_⟩
  · intro hne
    simp only [std_discount_pct, std_discount_amount, if_neg hne]
  · simp [std_discount_pct, std_discount_amount]
  · simp only [std_discount_amount, hm]
  · simp only [std_discount_pct, std_discount_amount, hm]
    rw [if_neg (by norm_num : ¬(100 : ℚ) = 0)]
    rw [round2_eval _ 2500 (by push_cast; norm_num) (by push_cast; norm_num)]
    norm_num

theorem c5_discount_derivation_witness :
    (100 : ℚ) ≠ 0
    ∧ std_discount_pct (some 100) (some 75)
        = some (round2 (max (100 - 75) 0 / 100 * 100)) :=
  ⟨by norm_num, (c5_discount_derivation 100 75).2.2.1 (by norm_num)⟩

/-- C6: the code evaluated at the failing input — `pd.cut`'s bins are
right-closed, so the first bin `(0, 18]` contains age exactly 18 and it is
labeled `"<18"` (and age 0 falls in no bin at all), contradicting the
claimed `18 → "18-30"`; age 31 does land in `"31-45"` as claimed. -/
theorem c6_age_group_eval :
    age_group_of (some 18) = some "<18"
    ∧ age_group_of (some 31) = some "31-45"
    ∧ age_group_of (some 17) = some "<18"
    ∧ age_group_of (some 0) = none :=
  ⟨by decide, by decide, by decide, by decide⟩

/-- C8: for every non-null temperature in the span of the DIM_TEMPERATURE
bands, `get_temp_category` returns exactly the `temp_category_key` of the
unique dimension row with `temp_range_min ≤ t < temp_range_max`
(thresholds Freezing <32, Cold 32-50, Cool 50-70, Warm 70-85, Hot ≥85),
and a null temperature maps to the sentinel −1. -/
theorem c8_temp_category_agrees (t : ℚ) (h1 : -999 ≤ t) (h2 : t < 999) :
    (∀ r ∈ build_dim_temperature,
      (r.temp_range_min ≤ t ∧ t < r.temp_range_max)
        ↔ get_temp_category (some t) = r.temp_category_key)
    ∧ get_temp_category none = -1 := by
  refine ⟨?_, rfl⟩
  intro r hr
  fin_cases hr <;>
    constructor <;>
    intro h <;>
    simp only [get_temp_category] at * <;>
    split_ifs at * <;>
    first
      | rfl
      | (exfalso; linarith [h.1, h.2])
      | (exact absurd h (by decide))
      | (exact ⟨by linarith, by linarith⟩)

theorem c8_temp_category_agrees_witness :
    ((-999 : ℚ) ≤ 75 ∧ (75 : ℚ) < 999)
    ∧ ((∀ r ∈ build_dim_temperature,
        (r.temp_range_min ≤ (75 : ℚ) ∧ (75 : ℚ) < r.temp_range_max)
          ↔ get_temp_category (some 75) = r.temp_category_key)
      ∧ get_temp_category none = -1) :=
  ⟨⟨by norm_num, by norm_num⟩, c8_temp_category_agrees 75 (by norm_num) (by norm_num)⟩

/-- C9: in every quality report, `passed + failed = total_checks`; the
`failed_checks` list holds exactly the entries (stage, table, check,
message) of the results whose `passed` is false, in the same number; and
the report-level `passed` is true iff every accumulated result passed
(vacuously true for an empty report). -/
theorem c9_quality_report_consistency (rs : List QualityCheckResult) :
    summary_passed rs + summary_failed rs = summary_total rs
    ∧ (∀ e : FailedCheckEntry, e ∈ failed_checks rs
        ↔ ∃ r ∈ rs, r.passed = false
            ∧ e = ⟨r.stage, r.table_name, r.check_name, r.message⟩)
    ∧ (failed_checks rs).length = summary_failed rs
    ∧ (report_passed rs = true ↔ ∀ r ∈ rs, r.passed = true) := by
  have hsplit := filter_split_len (fun r => r.passed) rs
  refine ⟨?_, ?_, ?_, ?_⟩
  · have hle := List.length_filter_le (fun r => r.passed) rs
    simp only [summary_passed, summary_failed, summary_total]
    omega
  · intro e
    constructor
    · intro he
      obtain ⟨r, hr, rfl⟩ := List.mem_map.mp he
      obtain ⟨hrs, hp⟩ := List.mem_filter.mp hr
      exact ⟨r, hrs, by simpa using hp, rfl⟩
    · rintro ⟨r, hrs, hp, rfl⟩
      exact List.mem_map.mpr ⟨r, List.mem_filter.mpr ⟨hrs, by simp [hp]⟩, rfl⟩
  · simp only [failed_checks, List.length_map, summary_failed, summary_passed,
      summary_total]
    omega
  · simp [report_passed, List.all_eq_true]

/-- C7: every calendar dimension built — DIM_DATE over the padded observed
purchase-date range (−30/+90 days, or the 2020-2030 default when no date
is observed) and DIM_DATE_STORE over the observed sale-date range — has
exactly `(end − start).days + 1` rows, pairwise-distinct `date_key`s,
consecutive days with no gap, `date_key` equal to the YYYYMMDD integer of
the row's date, and `is_weekend = 1` exactly on Saturday and Sunday. -/
theorem c7_dim_date_calendar (ps : Option (List PurchRow)) (sp : List StoreRow)
    (hps : ∀ d ∈ (ps.getD []).filterMap (fun r => r.purchase_date),
      ValidDate d ∧ 2 ≤ d.year)
    (hsp : ∀ d ∈ sp.filterMap (fun r => r.sale_date), ValidDate d) :
    CalendarOK (dim_date_bounds ps).1 (dim_date_bounds ps).2 (build_dim_date ps)
    ∧ (∀ t, build_dim_date_store sp = some t →
        ∃ start endD : Date, t = build_date_rows start endD ∧ CalendarOK start endD t) := by
  constructor
  · have hv : ValidDate (dim_date_bounds ps).1 := by
      cases hds : (ps.getD []).filterMap (fun r => r.purchase_date) with
      | nil =>
        simp only [dim_date_bounds, hds]
        decide
      | cons d0 rest =>
        simp only [dim_date_bounds, hds]
        have hmin := hps (minByIdx d0 rest) (by rw [hds]; exact minByIdx_mem d0 rest)
        have hidx := dateIdx_ge_365 _ hmin.2
        exact (subDays_spec _ hmin.1 30 (by omega)).1
    exact calendar_ok _ _ hv
  · intro t ht
    cases hds : sp.filterMap (fun r => r.sale_date) with
    | nil => simp [build_dim_date_store, hds] at ht
    | cons d0 rest =>
      simp only [build_dim_date_store, hds, Option.some.injEq] at ht
      have hminv := hsp (minByIdx d0 rest) (by rw [hds]; exact minByIdx_mem d0 rest)
      exact ⟨minByIdx d0 rest, maxByIdx d0 rest, ht.symm,
        ht ▸ calendar_ok _ _ hminv⟩

theorem c7_dim_date_calendar_witness :
    (∀ d ∈ ((some [samplePurchRow]).getD []).filterMap (fun r => r.purchase_date),
      ValidDate d ∧ 2 ≤ d.year)
    ∧ (∀ d ∈ ([] : List StoreRow).filterMap (fun r => r.sale_date), ValidDate d)
    ∧ (CalendarOK (dim_date_bounds (some [samplePurchRow])).1
        (dim_date_bounds (some [samplePurchRow])).2
        (build_dim_date (some [samplePurchRow]))
      ∧ (∀ t, build_dim_date_store [] = some t →
          ∃ start endD : Date, t = build_date_rows start endD ∧ CalendarOK start endD t)) :=
  ⟨by decide, by decide,
    c7_dim_date_calendar (some [samplePurchRow]) [] (by decide) (by decide)⟩

/-- A standardized e-commerce row with an unproblematic literal id, used
by the C2 witness. -/
def ecomSampleRow : EcomRow :=
  { ecommerce_id := some "E1", product_name := some "TV", product_id := some "P1",
    brand := some "A", root_category := some "Root", sub_category := some "Sub",
    list_price := some 100, sale_price := some 75, discount_amount := some 25,
    discount_pct := some 25, is_available := 1 }

/-- Two standardized rows sharing one product name (hence one
`product_id`) with different brands. -/
def ecomCexRows : List EcomRow :=
  [mk_std_ecommerce_row (some "E1") (some "Sony TV") (some "A") (some "Root")
    (some "Sub") (some 100) (some 75) 1,
   mk_std_ecommerce_row (some "E2") (some "Sony TV") (some "B") (some "Root")
    (some "Sub") (some 100) (some 75) 1]

set_option maxRecDepth 1000000 in
/-- C2 counterexample: the two source rows share one `product_id` but
differ in brand, so `DIM_ECOMMERCE_PRODUCT` (which de-duplicates whole
rows, not the join key) keeps both; the product join fans out and
FACT_ECOMMERCE_SALES gets 4 rows from the 2-row source. -/
theorem c2_row_parity_cex :
    ecomCexRows.length = 2
    ∧ (build_dim_ecommerce_product ecomCexRows).length = 2
    ∧ (fact_ecom_rows ecomCexRows (build_dim_ecommerce_product ecomCexRows)
        (build_dim_ecommerce_category ecomCexRows)
        (build_dim_ecommerce_brand ecomCexRows)).length = 4 := by
  have hid : build_product_id (some "Sony TV") = some "PROD_2d67b74388" := by decide
  have he : ecomCexRows =
      [{ ecommerce_id := some "E1", product_name := some "Sony TV",
         product_id := some "PROD_2d67b74388", brand := some "A",
         root_category := some "Root", sub_category := some "Sub",
         list_price := some 100, sale_price := some 75,
         discount_amount := std_discount_amount (some 100) (some 75),
         discount_pct := std_discount_pct (some 100) (some 75), is_available := 1 },
       { ecommerce_id := some "E2", product_name := some "Sony TV",
         product_id := some "PROD_2d67b74388", brand := some "B",
         root_category := some "Root", sub_category := some "Sub",
         list_price := some 100, sale_price := some 75,
         discount_amount := std_discount_amount (some 100) (some 75),
         discount_pct := std_discount_pct (some 100) (some 75), is_available := 1 }] := by
    simp only [ecomCexRows, mk_std_ecommerce_row, hid]
  rw [he]
  exact ⟨rfl, by decide, by decide⟩

/-- C2 amended: FACT_SALES and FACT_STORE_PERFORMANCE always have exactly
as many rows as their standardized sources — their dimensions are
de-duplicated on the join key, so the left joins neither drop nor
duplicate rows.  FACT_ECOMMERCE_SALES preserves the row count only when
every `product_id` occurs with a single attribute combination:
DIM_ECOMMERCE_PRODUCT de-duplicates whole projected rows, so a business
key appearing with differing attribute values duplicates fact rows. -/
theorem c2_row_parity_amended (ps : List PurchRow) (sp : List StoreRow)
    (es : List EcomRow) :
    (fact_sales_rows ps (build_dim_product (build_product_master ps))
      (build_dim_customer ps) (build_dim_payment ps)
      (build_dim_category ps)).length = ps.length
    ∧ (fact_store_rows sp (build_dim_store sp)).length = sp.length
    ∧ (((build_dim_ecommerce_product es).map (fun d => d.product_id)).Nodup →
        (fact_ecom_rows es (build_dim_ecommerce_product es)
          (build_dim_ecommerce_category es) (build_dim_ecommerce_brand es)).length
          = es.length) :=
  ⟨fact_sales_parity ps, fact_store_parity sp, fun h => fact_ecom_parity es h⟩

theorem c2_row_parity_amended_witness :
    (((build_dim_ecommerce_product [ecomSampleRow]).map
        (fun d => d.product_id)).Nodup)
    ∧ (fact_ecom_rows [ecomSampleRow] (build_dim_ecommerce_product [ecomSampleRow])
        (build_dim_ecommerce_category [ecomSampleRow])
        (build_dim_ecommerce_brand [ecomSampleRow])).length
        = [ecomSampleRow].length :=
  ⟨by decide, (c2_row_parity_amended [] [] [ecomSampleRow]).2.2 (by decide)⟩


/-- A standardized store-performance row used by concrete witnesses. -/
def sampleStoreRow : StoreRow :=
  { store_id := some 7, sale_date := some ⟨2024, 1, 15⟩, weekly_sales := some 1000,
    temperature := some 45, fuel_price := some 3, cpi := some 210,
    unemployment := some 6, holiday_flag := 0 }

/-- The FACT_SALES row produced from `[samplePurchRow]`. -/
def c3SampleFact : FactSalesRow :=
  { sale_id := 1, date_key := 20240115, customer_key := 1, product_key := 1,
    payment_key := 1, category_key := 1, purchase_amount := 100,
    discount_applied := 0, rating := 4, repeat_customer := 1 }

/-- C3: in a run whose dimensions are built from the same standardized
inputs as the facts, every foreign-key value of every fact row is the
sentinel `-1` or a key present in the referenced dimension's surrogate-key
column — including `date_key`, which is computed arithmetically as
`YYYYMMDD` yet always lands inside `DIM_DATE`'s −30/+90-padded calendar
(resp. `DIM_DATE_STORE`'s observed range) — and, being an integer column
with `fillna(-1)`, is never missing. -/
theorem c3_fact_fk_soundness (ps : List PurchRow) (sp : List StoreRow) (es : List EcomRow)
    (hps : ∀ d ∈ ps.filterMap (fun r => r.purchase_date), ValidDate d ∧ 2 ≤ d.year)
    (hsp : ∀ d ∈ sp.filterMap (fun r => r.sale_date), ValidDate d) :
    (∀ f ∈ fact_sales_rows ps (build_dim_product (build_product_master ps))
        (build_dim_customer ps) (build_dim_payment ps) (build_dim_category ps),
      (f.date_key = -1
        ∨ f.date_key ∈ (build_dim_date (some ps)).map (fun r => (r.date_key : Int)))
      ∧ (f.customer_key = -1
        ∨ f.customer_key ∈ (build_dim_customer ps).map (fun r => r.customer_key))
      ∧ (f.product_key = -1
        ∨ f.product_key ∈ (build_dim_product (build_product_master ps)).map
            (fun r => r.product_key))
      ∧ (f.payment_key = -1
        ∨ f.payment_key ∈ (build_dim_payment ps).map (fun r => r.payment_key))
      ∧ (f.category_key = -1
        ∨ f.category_key ∈ (build_dim_category ps).map (fun r => r.category_key)))
    ∧ (∀ f ∈ fact_store_rows sp (build_dim_store sp),
      (f.date_key = -1
        ∨ ∃ t, build_dim_date_store sp = some t
            ∧ f.date_key ∈ t.map (fun r => (r.date_key : Int)))
      ∧ (f.store_key = -1
        ∨ f.store_key ∈ (build_dim_store sp).map (fun r => r.store_key))
      ∧ (f.temp_category_key = -1
        ∨ f.temp_category_key ∈ build_dim_temperature.map
            (fun r => r.temp_category_key)))
    ∧ (∀ f ∈ fact_ecom_rows es (build_dim_ecommerce_product es)
        (build_dim_ecommerce_category es) (build_dim_ecommerce_brand es),
      (f.ecommerce_product_key = -1
        ∨ f.ecommerce_product_key ∈ (build_dim_ecommerce_product es).map
            (fun d => d.ecommerce_product_key))
      ∧ (f.ecommerce_category_key = -1
        ∨ f.ecommerce_category_key ∈ (build_dim_ecommerce_category es).map
            (fun d => d.ecommerce_category_key))
      ∧ (f.brand_key = -1
        ∨ f.brand_key ∈ (build_dim_ecommerce_brand es).map (fun d => d.brand_key))) := by
  refine ⟨?_, ?_, ?_⟩
  · intro f hf
    simp only [fact_sales_rows, List.mem_map] at hf
    obtain ⟨p, hp, rfl⟩ := hf
    rw [enum_def] at hp
    have hx4 := mem_of_mem_enumFrom hp
    have hx3 := (pd_left_merge_mem hx4).1
    have hx2 := (pd_left_merge_mem hx3).1
    have hx1 := (pd_left_merge_mem hx2).1
    have hr := (pd_left_merge_mem hx1).1
    refine ⟨?_, merged_key_sound hx2 (fun c : CustRow => c.customer_key),
      merged_key_sound hx1 (fun d : DimProdRow => d.product_key),
      merged_key_sound hx3 (fun d : PayRow => d.payment_key),
      merged_key_sound hx4 (fun d : CatRow => d.category_key)⟩
    show date_key_of p.2.1.1.1.1.purchase_date = -1
      ∨ date_key_of p.2.1.1.1.1.purchase_date
          ∈ (build_dim_date (some ps)).map (fun r => (r.date_key : Int))
    cases hpd : p.2.1.1.1.1.purchase_date with
    | none => exact Or.inl rfl
    | some d =>
      right
      have hdm : d ∈ ps.filterMap (fun r => r.purchase_date) :=
        List.mem_filterMap.mpr ⟨p.2.1.1.1.1, hr, by rw [hpd]⟩
      have hgd : (some ps).getD ([] : List PurchRow) = ps := rfl
      cases hds : ps.filterMap (fun r => r.purchase_date) with
      | nil => rw [hds] at hdm; simp at hdm
      | cons d0 rest =>
        obtain ⟨hdv, hdy⟩ := hps d hdm
        have hmin := hps (minByIdx d0 rest) (by rw [hds]; exact minByIdx_mem d0 rest)
        have hmax := hps (maxByIdx d0 rest) (by rw [hds]; exact maxByIdx_mem d0 rest)
        have hminIdx := dateIdx_ge_365 _ hmin.2
        obtain ⟨hsv, hsidx⟩ := subDays_spec _ hmin.1 30 (by omega)
        obtain ⟨hev, heidx⟩ := addDays_spec _ hmax.1 90
        rw [hds] at hdm
        have hge := minByIdx_le_all d0 rest d hdm
        have hle := maxByIdx_ge_all d0 rest d hdm
        have hmem := dateKey_mem_rows_int (subDays (minByIdx d0 rest) 30)
          (addDays (maxByIdx d0 rest) 90) d hsv hdv (by omega) (by omega)
        simp only [build_dim_date, dim_date_bounds, hgd, hds]
        exact hmem
  · intro f hf
    simp only [fact_store_rows, List.mem_map] at hf
    obtain ⟨p, hp, rfl⟩ := hf
    rw [enum_def] at hp
    have hx1 := mem_of_mem_enumFrom hp
    have hr := (pd_left_merge_mem hx1).1
    refine ⟨?_, merged_key_sound hx1 (fun s : StoreDimRow => s.store_key), ?_⟩
    · show date_key_of p.2.1.sale_date = -1
        ∨ ∃ t, build_dim_date_store sp = some t
            ∧ date_key_of p.2.1.sale_date ∈ t.map (fun r => (r.date_key : Int))
      cases hpd : p.2.1.sale_date with
      | none => exact Or.inl rfl
      | some d =>
        right
        have hdm : d ∈ sp.filterMap (fun r => r.sale_date) :=
          List.mem_filterMap.mpr ⟨p.2.1, hr, by rw [hpd]⟩
        cases hds : sp.filterMap (fun r => r.sale_date) with
        | nil => rw [hds] at hdm; simp at hdm
        | cons d0 rest =>
          have hdv := hsp d hdm
          have hmin := hsp (minByIdx d0 rest) (by rw [hds]; exact minByIdx_mem d0 rest)
          rw [hds] at hdm
          refine ⟨build_date_rows (minByIdx d0 rest) (maxByIdx d0 rest),
            by simp only [build_dim_date_store, hds], ?_⟩
          exact dateKey_mem_rows_int _ _ d hmin hdv
            (minByIdx_le_all d0 rest d hdm) (maxByIdx_ge_all d0 rest d hdm)
    · show get_temp_category p.2.1.temperature = -1
        ∨ get_temp_category p.2.1.temperature
            ∈ build_dim_temperature.map (fun r => r.temp_category_key)
      cases ht : p.2.1.temperature with
      | none => exact Or.inl rfl
      | some tv =>
        right
        simp only [get_temp_category]
        split_ifs <;> decide
  · intro f hf
    simp only [fact_ecom_rows, List.mem_map] at hf
    obtain ⟨p, hp, rfl⟩ := hf
    rw [enum_def] at hp
    have hx3 := mem_of_mem_enumFrom hp
    have hx2 := (pd_left_merge_mem hx3).1
    have hx1 := (pd_left_merge_mem hx2).1
    exact ⟨merged_key_sound hx1 (fun d : EcomProdDimRow => d.ecommerce_product_key),
      merged_key_sound hx2 (fun d : EcomCatDimRow => d.ecommerce_category_key),
      merged_key_sound hx3 (fun d : BrandDimRow => d.brand_key)⟩

theorem c3_fact_fk_soundness_witness :
    (c3SampleFact.date_key = -1
      ∨ c3SampleFact.date_key ∈ (build_dim_date (some [samplePurchRow])).map
          (fun r => (r.date_key : Int)))
    ∧ (c3SampleFact.customer_key = -1
      ∨ c3SampleFact.customer_key ∈ (build_dim_customer [samplePurchRow]).map
          (fun r => r.customer_key))
    ∧ (c3SampleFact.product_key = -1
      ∨ c3SampleFact.product_key ∈
          (build_dim_product (build_product_master [samplePurchRow])).map
            (fun r => r.product_key))
    ∧ (c3SampleFact.payment_key = -1
      ∨ c3SampleFact.payment_key ∈ (build_dim_payment [samplePurchRow]).map
          (fun r => r.payment_key))
    ∧ (c3SampleFact.category_key = -1
      ∨ c3SampleFact.category_key ∈ (build_dim_category [samplePurchRow]).map
          (fun r => r.category_key)) :=
  (c3_fact_fk_soundness [samplePurchRow] [sampleStoreRow] [ecomSampleRow]
    (by decide) (by decide)).1 c3SampleFact (by decide)


/-- A minimal purchase row carrying only a `customer_id`. -/
def mkC10Row (cid : Option String) : PurchRow :=
  { customer_id := cid, age := none, gender := none, city := none,
    category := none, product_name := none, product_id := none,
    purchase_date := none, purchase_amount := none, payment_method := none,
    rating := none, discount_applied_flag := 0, repeat_customer_flag := 0 }

/-- Three purchase rows, the middle one with a missing `customer_id`. -/
def c10Rows : List PurchRow :=
  [mkC10Row (some "C1"), mkC10Row none, mkC10Row (some "C2")]

/-- Mapping a position-independent function over an enumerated list is a
plain map over the list. -/
theorem map_enumFrom_eq {α γ : Type} (l : List α) (f : Nat × α → γ) (g : α → γ)
    (h : ∀ i a, f (i, a) = g a) : ∀ n : Nat, (List.enumFrom n l).map f = l.map g := by
  induction l with
  | nil => intro n; rfl
  | cons a as ih =>
    intro n
    show f (n, a) :: (List.enumFrom (n + 1) as).map f = g a :: as.map g
    rw [h, ih]

/-- The `customer_key` column of FACT_SALES is a per-row lookup of the
first customer-dimension row whose `customer_id` matches (the dimension's
`customer_id`s are distinct, so no merge fans out). -/
theorem fact_sales_customer_col (ps : List PurchRow) :
    (fact_sales_rows ps (build_dim_product (build_product_master ps))
      (build_dim_customer ps) (build_dim_payment ps)
      (build_dim_category ps)).map (fun f => f.customer_key)
    = ps.map (fun r => key_or_sentinel (fun c => c.customer_key)
        (((build_dim_customer ps).filter
            (fun d => r.customer_id == d.customer_id)).head?)) := by
  simp only [fact_sales_rows]
  set dimP := build_dim_product (build_product_master ps) with hdP
  set dimC := build_dim_customer ps with hdC
  set dimPay := build_dim_payment ps with hdPay
  set dimCat := build_dim_category ps with hdCat
  have e1 : pd_left_merge ps dimP (fun f d => f.product_id == some d.product_id)
      = ps.map (fun l =>
          (l, (dimP.filter ((fun f d => f.product_id == some d.product_id) l)).head?)) :=
    pd_left_merge_eq_map _ _ _ (fun l =>
      filter_key_len (fun d : DimProdRow => some d.product_id) dimP
        (by rw [hdP]; exact dim_product_keys_nodup ps) l.product_id)
  rw [e1]
  have e2 : pd_left_merge
        (ps.map (fun l =>
          (l, (dimP.filter ((fun f d => f.product_id == some d.product_id) l)).head?)))
        dimC (fun f d => f.1.customer_id == d.customer_id)
      = (ps.map (fun l =>
          (l, (dimP.filter ((fun f d => f.product_id == some d.product_id) l)).head?))).map
          (fun l => (l, (dimC.filter ((fun f d => f.1.customer_id == d.customer_id) l)).head?)) :=
    pd_left_merge_eq_map _ _ _ (fun l =>
      filter_key_len (fun d : CustRow => d.customer_id) dimC
        (by rw [hdC]; exact dim_customer_keys_nodup ps) l.1.customer_id)
  rw [e2]
  set s2 := (ps.map (fun l =>
      (l, (dimP.filter ((fun f d => f.product_id == some d.product_id) l)).head?))).map
      (fun l => (l, (dimC.filter ((fun f d => f.1.customer_id == d.customer_id) l)).head?))
    with hs2
  have e3 : pd_left_merge s2 dimPay (fun f d => f.1.1.payment_method == some d.payment_method)
      = s2.map (fun l =>
          (l, (dimPay.filter
            ((fun f d => f.1.1.payment_method == some d.payment_method) l)).head?)) :=
    pd_left_merge_eq_map _ _ _ (fun l =>
      filter_key_len (fun d : PayRow => some d.payment_method) dimPay
        (by rw [hdPay]; exact dim_payment_keys_nodup ps) l.1.1.payment_method)
  rw [e3]
  set s3 := s2.map (fun l =>
      (l, (dimPay.filter
        ((fun f d => f.1.1.payment_method == some d.payment_method) l)).head?)) with hs3
  have e4 : pd_left_merge s3 dimCat (fun f d => f.1.1.1.category == d.category_name)
      = s3.map (fun l =>
          (l, (dimCat.filter ((fun f d => f.1.1.1.category == d.category_name) l)).head?)) :=
    pd_left_merge_eq_map _ _ _ (fun l =>
      filter_key_len (fun d : CatRow => d.category_name) dimCat
        (by rw [hdCat]; exact dim_category_keys_nodup ps) l.1.1.1.category)
  rw [e4, hs3, hs2]
  simp only [List.map_map, enum_def]
  rw [map_enumFrom_eq _ _
    (fun a => key_or_sentinel (fun c : CustRow => c.customer_key) a.1.1.2)
    (fun i a => rfl) 0]
  rw [List.map_map]
  rfl


/-- C10 counterexample: on a 3-row source whose middle row lacks
`customer_id`, `DIM_CUSTOMER` keeps 3 rows (`drop_duplicates` keeps the
missing id as its own group), the affected fact row's `customer_key` is
the real surrogate key `2` of that dimension row (`pd.merge` matches
missing keys), and `check_foreign_key` reports no sentinel and no
orphan — not the claimed 2-row dimension, `-1` key and
`sentinel_count == 1`. -/
theorem c10_null_customer_cex :
    (build_dim_customer c10Rows).length = 3
    ∧ (fact_sales_rows c10Rows (build_dim_product (build_product_master c10Rows))
        (build_dim_customer c10Rows) (build_dim_payment c10Rows)
        (build_dim_category c10Rows)).map (fun f => f.customer_key) = [1, 2, 3]
    ∧ check_foreign_key
        ((fact_sales_rows c10Rows (build_dim_product (build_product_master c10Rows))
          (build_dim_customer c10Rows) (build_dim_payment c10Rows)
          (build_dim_category c10Rows)).map (fun f => f.customer_key))
        ((build_dim_customer c10Rows).map (fun r => r.customer_key))
      = ⟨0, 0, true⟩ :=
  ⟨by decide, by decide, by decide⟩

/-- C10 amended: for every 3-row purchases source whose middle row lacks
`customer_id` (the other two distinct and present), `DIM_CUSTOMER` keeps
all 3 rows — the missing id is one de-duplication group — `FACT_SALES`
still has 3 rows whose `customer_key` column is `[1, 2, 3]`: the affected
row is joined to the missing-id dimension row's real surrogate key rather
than filled with `-1`, and `check_foreign_key` on `customer_key` reports
`sentinel_count = 0` and `orphan_count = 0` and passes. -/
theorem c10_null_customer_amended (r1 r2 r3 : PurchRow) (a b : String)
    (h1 : r1.customer_id = some a) (h2 : r2.customer_id = none)
    (h3 : r3.customer_id = some b) (hab : a ≠ b) :
    (build_dim_customer [r1, r2, r3]).length = 3
    ∧ (fact_sales_rows [r1, r2, r3]
        (build_dim_product (build_product_master [r1, r2, r3]))
        (build_dim_customer [r1, r2, r3]) (build_dim_payment [r1, r2, r3])
        (build_dim_category [r1, r2, r3])).map (fun f => f.customer_key) = [1, 2, 3]
    ∧ check_foreign_key
        ((fact_sales_rows [r1, r2, r3]
          (build_dim_product (build_product_master [r1, r2, r3]))
          (build_dim_customer [r1, r2, r3]) (build_dim_payment [r1, r2, r3])
          (build_dim_category [r1, r2, r3])).map (fun f => f.customer_key))
        ((build_dim_customer [r1, r2, r3]).map (fun r => r.customer_key))
      = ⟨0, 0, true⟩ := by
  have hba : b ≠ a := fun he => hab he.symm
  have hdedup : drop_duplicatesBy (fun r => r.customer_id) [r1, r2, r3] = [r1, r2, r3] := by
    simp [drop_duplicatesBy, dedupAux, h1, h2, h3, hba]
  have hdim : build_dim_customer [r1, r2, r3]
      = [⟨1, r1.customer_id, r1.age, r1.gender, r1.city, age_group_of r1.age⟩,
         ⟨2, r2.customer_id, r2.age, r2.gender, r2.city, age_group_of r2.age⟩,
         ⟨3, r3.customer_id, r3.age, r3.gender, r3.city, age_group_of r3.age⟩] := by
    rw [build_dim_customer, hdedup]
    rfl
  have hcol : (fact_sales_rows [r1, r2, r3]
      (build_dim_product (build_product_master [r1, r2, r3]))
      (build_dim_customer [r1, r2, r3]) (build_dim_payment [r1, r2, r3])
      (build_dim_category [r1, r2, r3])).map (fun f => f.customer_key) = [1, 2, 3] := by
    rw [fact_sales_customer_col, hdim]
    simp only [List.map_cons, List.map_nil, List.filter_cons, List.filter_nil,
      h1, h2, h3]
    have hc1 : ((some a == some a : Bool) = true) := by simp
    have hc2 : ((some a == (none : Option String) : Bool) = false) := rfl
    have hc3 : ((some a == some b : Bool) = false) := by
      simp [hab]
    have hc4 : (((none : Option String) == some a : Bool) = false) := rfl
    have hc5 : (((none : Option String) == (none : Option String) : Bool) = true) := rfl
    have hc6 : (((none : Option String) == some b : Bool) = false) := rfl
    have hc7 : ((some b == some a : Bool) = false) := by
      simp [hba]
    have hc8 : ((some b == (none : Option String) : Bool) = false) := rfl
    have hc9 : ((some b == some b : Bool) = true) := by simp
    simp only [hc1, hc2, hc3, hc4, hc5, hc6, hc7, hc8, hc9, if_true, if_false]
    rfl
  refine ⟨by rw [hdim]; rfl, hcol, ?_⟩
  have hkeys : (build_dim_customer [r1, r2, r3]).map (fun r => r.customer_key)
      = [1, 2, 3] := by rw [hdim]; rfl
  rw [hcol, hkeys]
  decide

theorem c10_null_customer_amended_witness :
    (build_dim_customer [mkC10Row (some "C1"), mkC10Row none,
        mkC10Row (some "C2")]).length = 3
    ∧ (fact_sales_rows [mkC10Row (some "C1"), mkC10Row none, mkC10Row (some "C2")]
        (build_dim_product (build_product_master
          [mkC10Row (some "C1"), mkC10Row none, mkC10Row (some "C2")]))
        (build_dim_customer [mkC10Row (some "C1"), mkC10Row none, mkC10Row (some "C2")])
        (build_dim_payment [mkC10Row (some "C1"), mkC10Row none, mkC10Row (some "C2")])
        (build_dim_category [mkC10Row (some "C1"), mkC10Row none,
          mkC10Row (some "C2")])).map (fun f => f.customer_key) = [1, 2, 3]
    ∧ check_foreign_key
        ((fact_sales_rows [mkC10Row (some "C1"), mkC10Row none, mkC10Row (some "C2")]
          (build_dim_product (build_product_master
            [mkC10Row (some "C1"), mkC10Row none, mkC10Row (some "C2")]))
          (build_dim_customer
            [mkC10Row (some "C1"), mkC10Row none, mkC10Row (some "C2")])
          (build_dim_payment [mkC10Row (some "C1"), mkC10Row none, mkC10Row (some "C2")])
          (build_dim_category [mkC10Row (some "C1"), mkC10Row none,
            mkC10Row (some "C2")])).map (fun f => f.customer_key))
        ((build_dim_customer [mkC10Row (some "C1"), mkC10Row none,
          mkC10Row (some "C2")]).map (fun r => r.customer_key))
      = ⟨0, 0, true⟩ :=
  c10_null_customer_amended (mkC10Row (some "C1")) (mkC10Row none)
    (mkC10Row (some "C2")) "C1" "C2" rfl rfl rfl (by decide)

end WG
